import Mathlib

/-!
The cluster-machine-approver: CSR authorization and reconciliation.

A shallow embedding of `csr_check.go` (`validateCSRContents`, `authorizeCSR`,
`_logClusterCodePath`) and of `Controller.handleNewCSR` and `Controller.handleErr` from
`main.go`.

Modelling conventions.

* Go `string` values are Lean `String`s; `len(s) < 1` is `s.length < 1`
  (both hold exactly for the empty string).
* A Go `error` result is the `Except.error` side of `Except String _`, the
  message being the text given to `fmt.Errorf`; `nil` is `Except.ok`.
* The string-typed enumerations of the Kubernetes API (`KeyUsage`,
  `NodeAddressType`, `RequestConditionType`) are strings, with the constants
  taking the values the API packages give them.
* `net.IP` is a byte list; its `String()` method belongs to the Go standard
  library and is a parameter (`ipString`) of everything that calls it.
* `glog` calls only write log lines and are left out.
* Every function of the two files starts with `_logClusterCodePath()` and
  `defer _logClusterCodePath()`.  That helper is embedded on its own below
  (`_logClusterCodePath`, with fuel).  The definitions `validateCSRContents`,
  `authorizeCSR`, `handleNewCSR` and `handleErr` embed the function bodies that
  follow those two instrumentation lines, that is what each function does once
  the helper has returned; `validateCSRContentsCall`, `authorizeCSRCall`,
  `handleNewCSRCall` and `handleErrCall` embed the functions as written, the
  frame `withCodePathLog` of the two instrumentation lines around the body.
* The work queue of client-go is modelled by its per-key requeue counter and
  the calls it receives (`Queue`).
-/

namespace MachineApprover

/-! ## Data model -/

/-- The `metav1.ObjectMeta` fields the controller reads. -/
structure ObjectMeta where
  Name : String
  Namespace : String
  deriving DecidableEq, Repr

/-- The `certificatesv1beta1.CertificateSigningRequestSpec` record. -/
structure CertificateSigningRequestSpec where
  Request : List Nat
  Usages : List String
  Username : String
  UID : String
  Groups : List String
  Extra : List (String × List String)
  deriving DecidableEq, Repr

/-- The `certificatesv1beta1.CertificateSigningRequestCondition` record; `condType` is its
`Type` field and `LastUpdateTime` a clock reading. -/
structure CertificateSigningRequestCondition where
  condType : String
  Reason : String
  Message : String
  LastUpdateTime : Nat
  deriving DecidableEq, Repr

/-- The `certificatesv1beta1.CertificateSigningRequestStatus` record. -/
structure CertificateSigningRequestStatus where
  Conditions : List CertificateSigningRequestCondition
  Certificate : List Nat
  deriving DecidableEq, Repr

/-- The `certificatesv1beta1.CertificateSigningRequest` object. -/
structure CertificateSigningRequest where
  Meta : ObjectMeta
  Spec : CertificateSigningRequestSpec
  Status : CertificateSigningRequestStatus
  deriving DecidableEq, Repr

/-- The `pkix.Name` fields read by the approver. -/
structure Name where
  CommonName : String
  Organization : List String
  deriving DecidableEq, Repr

/-- A `net.IP` value: a byte slice. -/
abbrev IP := List Nat

/-- The `x509.CertificateRequest` fields read by the approver. -/
structure CertificateRequest where
  Subject : Name
  DNSNames : List String
  IPAddresses : List IP
  deriving DecidableEq, Repr

/-- The `v1.ObjectReference` of a machine's node. -/
structure ObjectReference where
  Kind : String
  Name : String
  deriving DecidableEq, Repr

/-- The `v1.NodeAddress` record; `addrType` is its `Type` field. -/
structure NodeAddress where
  addrType : String
  Address : String
  deriving DecidableEq, Repr

/-- The `v1beta1.MachineStatus` fields read by the approver; `NodeRef` is a pointer
that may be nil. -/
structure MachineStatus where
  NodeRef : Option ObjectReference
  Addresses : List NodeAddress
  deriving DecidableEq, Repr

/-- The `v1beta1.Machine` object. -/
structure Machine where
  Meta : ObjectMeta
  Status : MachineStatus
  deriving DecidableEq, Repr

/-- The `v1beta1.MachineList` object. -/
structure MachineList where
  Items : List Machine
  deriving DecidableEq, Repr

/-! ## Constants -/

def nodeUser : String := "system:node"
def nodeGroup : String := "system:nodes"
def nodeUserPrefix : String := nodeUser ++ ":"

def UsageDigitalSignature : String := "digital signature"
def UsageKeyEncipherment : String := "key encipherment"
def UsageServerAuth : String := "server auth"

def CertificateApproved : String := "Approved"
def CertificateDenied : String := "Denied"

def NodeHostName : String := "Hostname"
def NodeExternalIP : String := "ExternalIP"
def NodeInternalIP : String := "InternalIP"
def NodeExternalDNS : String := "ExternalDNS"
def NodeInternalDNS : String := "InternalDNS"

/-! ## Library functions used by the source -/

/-- Go `strings.HasPrefix s p`. -/
def HasPrefix (s p : String) : Bool := p.data.isPrefixOf s.data

/-- Go `strings.TrimPrefix s p`. -/
def TrimPrefix (s p : String) : String :=
  if HasPrefix s p then String.mk (s.data.drop p.data.length) else s

/-- The call `sets.NewString(xs...).HasAll(items...)`. -/
def HasAll (xs items : List String) : Bool := items.all (fun i => decide (i ∈ xs))

/-- Go `strings.Join elems sep`. -/
def Join (elems : List String) (sep : String) : String := sep.intercalate elems

/-! ## `csr_check.go` -/

/-- The helper `_logClusterCodePath` (lines 134-140): its first statement is a call to
itself, and so is its deferred statement.  `fuel` bounds the call depth; `none` means the
call has not returned within that depth. -/
def _logClusterCodePath : Nat → Option Unit
  | 0 => none
  | fuel + 1 =>
    match _logClusterCodePath fuel with
    | none => none
    | some () => _logClusterCodePath fuel

/-- The body of `validateCSRContents` (lines 25-66): what the function computes once the call
of `_logClusterCodePath` on entry (line 23) has returned.  The function as written, with
that call and the deferred one (line 24), is `validateCSRContentsCall`. -/
def validateCSRContents (req : CertificateSigningRequest) (csr : CertificateRequest) :
    Except String String :=
  if !HasPrefix req.Spec.Username nodeUserPrefix then
    .error "Doesn't match expected prefix"
  else
    let nodeAsking := TrimPrefix req.Spec.Username nodeUserPrefix
    if nodeAsking.length < 1 then .error "Empty name"
    else if req.Spec.Groups.length < 2 then .error "Too few groups"
    else if !HasAll req.Spec.Groups [nodeGroup, "system:authenticated"] then
      .error "Not in system:authenticated"
    else if req.Spec.Usages.length ≠ 3 then .error "Too few usages"
    else
      let usages := req.Spec.Usages.foldl (fun acc u => acc ++ [u]) []
      if usages.length ≠ 3 then .error ("Unexpected usages: " ++ toString usages.length)
      else if !HasAll usages [UsageDigitalSignature, UsageKeyEncipherment, UsageServerAuth] then
        .error "Missing usages"
      else if csr.Subject.CommonName ≠ req.Spec.Username then
        .error ("Mismatched CommonName " ++ csr.Subject.CommonName ++ " != " ++ req.Spec.Username)
      else
        let hasOrg := csr.Subject.Organization.any (fun o => decide (o = nodeGroup))
        if !hasOrg then .error ("Organization doesn't include " ++ nodeGroup)
        else .ok nodeAsking

/-- A call of `validateCSRContents` as written (lines 22-67): the call of the helper on
entry (line 23), the body, and the deferred call of the helper on return (line 24).  `none`
means the call has not returned within call depth `fuel`. -/
def validateCSRContentsCall (fuel : Nat) (req : CertificateSigningRequest)
    (csr : CertificateRequest) : Option (Except String String) :=
  match _logClusterCodePath fuel with
  | none => none
  | some () =>
    let result := validateCSRContents req csr
    match _logClusterCodePath fuel with
    | none => none
    | some () => some result

/-- The frame that every function of the two files shares: `_logClusterCodePath()` on entry,
then the body, then the deferred `_logClusterCodePath()` on return.  `helper` is the outcome
of a call of the helper (`none`: the call does not return) and `body` is what the body
computes and does.  `none` means that the function does not return; the call on entry is
then the one that does not return, so the body has not run. -/
def withCodePathLog {α : Type} (helper : Option Unit) (body : α) : Option α :=
  match helper with
  | none => none
  | some () =>
    match helper with
    | none => none
    | some () => some body

/-- The loop over `machineList.Items` (lines 78-84): the status of the first machine whose
`NodeRef` is not nil and names `nodeAsking`; `none` is the nil `targetMachine`. -/
def findTargetMachine : List Machine → String → Option MachineStatus
  | [], _ => none
  | machine :: rest, nodeAsking =>
    match machine.Status.NodeRef with
    | some ref => if ref.Name = nodeAsking then some machine.Status
                  else findTargetMachine rest nodeAsking
    | none => findTargetMachine rest nodeAsking

/-- The inner loop over `targetMachine.Addresses` (lines 94-105 and 116-127).  `cases` is the
`case` list of the `switch`, the state is `(attemptedAddresses, foundSan)`.  The `break`
sits inside the `switch`, so it leaves the `switch` and the loop goes on to the next
address. -/
def scanAddresses (cases : List String) (san : String) (addrs : List NodeAddress) :
    List String × Bool :=
  addrs.foldl (fun st addr =>
    if addr.addrType ∈ cases then
      if san = addr.Address then (st.1, true) else (st.1 ++ [addr.Address], st.2)
    else st) ([], false)

/-- The loop over `csr.DNSNames` (lines 88-109); `.ok ()` when the loop runs to its end. -/
def checkDNSNames (targetMachine : MachineStatus) : List String → Except String Unit
  | [] => .ok ()
  | san :: rest =>
    if san.length < 1 then checkDNSNames targetMachine rest
    else
      let st := scanAddresses [NodeInternalDNS, NodeExternalDNS, NodeHostName] san
        targetMachine.Addresses
      if !st.2 then
        .error ("DNS name '" ++ san ++ "' not in machine names: " ++ Join st.1 " ")
      else checkDNSNames targetMachine rest

/-- The loop over `csr.IPAddresses` (lines 110-131); `.ok ()` when the loop runs to its end.
The verb `%s` prints a `net.IP` through its `String()` method. -/
def checkIPAddresses (ipString : IP → String) (targetMachine : MachineStatus) :
    List IP → Except String Unit
  | [] => .ok ()
  | san :: rest =>
    if san.length < 1 then checkIPAddresses ipString targetMachine rest
    else
      let st := scanAddresses [NodeInternalIP, NodeExternalIP] (ipString san)
        targetMachine.Addresses
      if !st.2 then
        .error ("IP address '" ++ ipString san ++ "' not in machine addresses: " ++ Join st.1 " ")
      else checkIPAddresses ipString targetMachine rest

/-- The body of `authorizeCSR` (lines 71-132): what the function computes once the call of
`_logClusterCodePath` on entry (line 69) has returned; the three pointer arguments are
options, `none` being nil.  The function as written, with that call and the deferred one
(line 70), is `authorizeCSRCall`. -/
def authorizeCSR (ipString : IP → String) (machineList : Option MachineList)
    (req : Option CertificateSigningRequest) (csr : Option CertificateRequest) :
    Except String Unit :=
  match machineList, req, csr with
  | some machineList, some req, some csr =>
    if machineList.Items.length < 1 then .error "Invalid request"
    else
      match validateCSRContents req csr with
      | .error err => .error err
      | .ok nodeAsking =>
        match findTargetMachine machineList.Items nodeAsking with
        | none => .error "No target machine"
        | some targetMachine =>
          match checkDNSNames targetMachine csr.DNSNames with
          | .error err => .error err
          | .ok () => checkIPAddresses ipString targetMachine csr.IPAddresses
  | _, _, _ => .error "Invalid request"

/-- A call of `authorizeCSR` as written (lines 68-133), within call depth `fuel`: the frame
of lines 69-70 around the body.  `none` means the call has not returned. -/
def authorizeCSRCall (fuel : Nat) (ipString : IP → String) (machineList : Option MachineList)
    (req : Option CertificateSigningRequest) (csr : Option CertificateRequest) :
    Option (Except String Unit) :=
  withCodePathLog (_logClusterCodePath fuel) (authorizeCSR ipString machineList req csr)

/-! ## `main.go` -/

/-- The collaborators of `Controller.handleNewCSR`, each given by its answer during one
call: `indexer` is `c.indexer.GetByKey` (error, or the object if it exists), `machineClient`
is the `List` call on the machines of `openshift-machine-api`, `clientset` is the error
result of `UpdateApproval` (`none` is nil), `ParseCSR` is `csrclient.ParseCSR`, `Now` is
`metav1.Now()` and `ipString` is `net.IP.String`. -/
structure Controller where
  indexer : String → Except String (Option CertificateSigningRequest)
  machineClient : Except String MachineList
  clientset : CertificateSigningRequest → Option String
  ParseCSR : CertificateSigningRequest → Except String CertificateRequest
  Now : Nat
  ipString : IP → String

/-- What one call of `handleNewCSR` does: the error it returns (`none` is nil) and the
objects it passed to `UpdateApproval`, in call order. -/
structure Outcome where
  err : Option String
  updates : List CertificateSigningRequest
  deriving DecidableEq, Repr

/-- Lines 97-102 of `handleNewCSR`: append the condition and submit the object. -/
def approve (c : Controller) (csr : CertificateSigningRequest) (approvalMsg : String) : Outcome :=
  let csr : CertificateSigningRequest :=
    { csr with Status := { csr.Status with Conditions := csr.Status.Conditions ++
        [{ condType := CertificateApproved, Reason := "NodeCSRApprove", Message := approvalMsg,
           LastUpdateTime := c.Now }] } }
  match c.clientset csr with
  | some err => { err := some err, updates := [csr] }
  | none => { err := none, updates := [csr] }

/-- The body of `Controller.handleNewCSR` (lines 52-102): what the function does once the
call of `_logClusterCodePath` on entry (line 50) has returned.  `DeepCopy` returns an equal
value.  The function as written, with that call and the deferred one (line 51), is
`handleNewCSRCall`. -/
def handleNewCSR (c : Controller) (key : String) : Outcome :=
  match c.indexer key with
  | .error err => { err := some err, updates := [] }
  | .ok none => { err := none, updates := [] }
  | .ok (some obj) =>
    let csr := obj
    let alreadyApproved := csr.Status.Conditions.any (fun c => decide (c.condType = CertificateApproved))
    if alreadyApproved then { err := none, updates := [] }
    else
      match c.ParseCSR csr with
      | .error _ => { err := none, updates := [] }
      | .ok parsedCSR =>
        let approvalMsg := "This CSR was approved by the Node CSR Approver"
        match c.machineClient with
        | .ok machineList =>
          match authorizeCSR c.ipString (some machineList) (some csr) (some parsedCSR) with
          | .error _ => { err := none, updates := [] }
          | .ok () => approve c csr approvalMsg
        | .error _ =>
          match validateCSRContents csr parsedCSR with
          | .error _ => { err := none, updates := [] }
          | .ok _ => approve c csr (approvalMsg ++ " (no SAN validation)")

/-- A call made by `handleErr` on the work queue or on `utilruntime`. -/
inductive QueueCall where
  | AddRateLimited (key : String)
  | Forget (key : String)
  | HandleError (err : String)
  deriving DecidableEq, Repr

/-- Modelled from the spec: the rate-limiting work queue `c.queue`
(`workqueue.RateLimitingInterface` of client-go, not part of the repository).  `failures` is
the per-key requeue counter, the number of `AddRateLimited` calls for the key since its last
`Forget`; `calls` records the calls received, in order, together with the errors reported
through `utilruntime.HandleError`. -/
structure Queue where
  failures : String → Nat
  calls : List QueueCall

/-- Modelled from the spec: `c.queue.NumRequeues(key)` reads the counter. -/
def Queue.NumRequeues (q : Queue) (key : String) : Nat := q.failures key

/-- Modelled from the spec: `c.queue.AddRateLimited(key)` re-enqueues the key and counts one
more requeue. -/
def Queue.AddRateLimited (q : Queue) (key : String) : Queue :=
  { failures := fun k => if k = key then q.failures key + 1 else q.failures k
    calls := q.calls ++ [.AddRateLimited key] }

/-- Modelled from the spec: `c.queue.Forget(key)` clears the counter of the key. -/
def Queue.Forget (q : Queue) (key : String) : Queue :=
  { failures := fun k => if k = key then 0 else q.failures k
    calls := q.calls ++ [.Forget key] }

/-- The call `utilruntime.HandleError(err)`: the error is reported. -/
def Queue.HandleError (q : Queue) (err : String) : Queue :=
  { failures := q.failures
    calls := q.calls ++ [.HandleError err] }

/-- The body of `Controller.handleErr` (lines 107-118): what the function does once the call
of `_logClusterCodePath` on entry (line 105) has returned; `err = none` is a nil error.  The
function as written, with that call and the deferred one (line 106), is `handleErrCall`. -/
def handleErr (q : Queue) (err : Option String) (key : String) : Queue :=
  match err with
  | none => q.Forget key
  | some err =>
    if q.NumRequeues key < 5 then q.AddRateLimited key
    else (q.Forget key).HandleError err

/-- A call of `Controller.handleNewCSR` as written (lines 49-103), within call depth `fuel`:
the frame of lines 50-51 around the body.  `none` means the call has not returned, and
then nothing has been looked up or submitted. -/
def handleNewCSRCall (fuel : Nat) (c : Controller) (key : String) : Option Outcome :=
  withCodePathLog (_logClusterCodePath fuel) (handleNewCSR c key)

/-- A call of `Controller.handleErr` as written (lines 104-119), within call depth `fuel`:
the frame of lines 105-106 around the body.  `none` means the call has not returned, and
then the queue has received no call. -/
def handleErrCall (fuel : Nat) (q : Queue) (err : Option String) (key : String) :
    Option Queue :=
  withCodePathLog (_logClusterCodePath fuel) (handleErr q err key)

/-- The queue after `n` consecutive calls `handleErr(err, key)` with the same non-nil
error. -/
def afterFailures (q : Queue) (err key : String) : Nat → Queue
  | 0 => q
  | n + 1 => handleErr (afterFailures q err key n) (some err) key

/-- A queue that has received no call. -/
def freshQueue : Queue := { failures := fun _ => 0, calls := [] }

/-! ## Vocabulary of the specification -/

/-- The five checks of the identity validator, in the order the specification lists them. -/
inductive Check where
  | username
  | groups
  | usages
  | commonName
  | organization
  deriving DecidableEq, Repr

/-- Position of a check in the specification's list. -/
def Check.idx : Check → Nat
  | .username => 1
  | .groups => 2
  | .usages => 3
  | .commonName => 4
  | .organization => 5

/-- The specification's wording of each check (section 4.1, items 1 to 5). -/
def specCheck : Check → CertificateSigningRequest → CertificateRequest → Bool
  | .username, req, _ =>
    HasPrefix req.Spec.Username "system:node:" &&
      decide (0 < (TrimPrefix req.Spec.Username "system:node:").length)
  | .groups, req, _ =>
    decide (2 ≤ req.Spec.Groups.length) && decide ("system:nodes" ∈ req.Spec.Groups) &&
      decide ("system:authenticated" ∈ req.Spec.Groups)
  | .usages, req, _ =>
    decide (req.Spec.Usages.length = 3) && decide (UsageDigitalSignature ∈ req.Spec.Usages) &&
      decide (UsageKeyEncipherment ∈ req.Spec.Usages) &&
      decide (UsageServerAuth ∈ req.Spec.Usages)
  | .commonName, req, csr => decide (csr.Subject.CommonName = req.Spec.Username)
  | .organization, _, csr => decide ("system:nodes" ∈ csr.Subject.Organization)

/-- The check whose code produces a given rejection reason of the identity validator, read
off the text of the reason. -/
def reasonField (reason : String) : Option Check :=
  if HasPrefix reason "Mismatched CommonName " then some .commonName
  else if HasPrefix reason "Unexpected usages: " then some .usages
  else if reason = "Doesn't match expected prefix" ∨ reason = "Empty name" then some .username
  else if reason = "Too few groups" ∨ reason = "Not in system:authenticated" then some .groups
  else if reason = "Too few usages" ∨ reason = "Missing usages" then some .usages
  else if reason = "Organization doesn't include system:nodes" then some .organization
  else none

/-- Machine `m` is bound to node `n`: its `nodeRef` is present with name `n`. -/
def RefersTo (m : Machine) (n : String) : Prop :=
  ∃ ref, m.Status.NodeRef = some ref ∧ ref.Name = n

/-- Machine `m` is the first machine of `items`, in list order, bound to node `n`. -/
def IsTargetMachine (items : List Machine) (n : String) (m : Machine) : Prop :=
  ∃ before after, items = before ++ m :: after ∧ (∀ x ∈ before, ¬ RefersTo x n) ∧ RefersTo m n

/-- Address types a DNS SAN is compared with. -/
def IsDNSType (t : String) : Prop := t = NodeInternalDNS ∨ t = NodeExternalDNS ∨ t = NodeHostName

/-- Address types an IP SAN is compared with. -/
def IsIPType (t : String) : Prop := t = NodeInternalIP ∨ t = NodeExternalIP

instance (t : String) : Decidable (IsDNSType t) := by unfold IsDNSType; infer_instance

instance (t : String) : Decidable (IsIPType t) := by unfold IsIPType; infer_instance

/-- Values of the addresses of DNS or hostname type, in the machine's address order. -/
def dnsValues (st : MachineStatus) : List String :=
  (st.Addresses.filter (fun a => decide (IsDNSType a.addrType))).map (fun a => a.Address)

/-- Values of the addresses of IP type, in the machine's address order. -/
def ipValues (st : MachineStatus) : List String :=
  (st.Addresses.filter (fun a => decide (IsIPType a.addrType))).map (fun a => a.Address)

/-- The first non-empty DNS SAN, in request order, that is not the value of an address of
DNS or hostname type. -/
def firstMissingDNS (st : MachineStatus) (dns : List String) : Option String :=
  dns.find? (fun san => decide (san ≠ "" ∧ san ∉ dnsValues st))

/-- The first non-empty IP SAN, in request order, whose string form is not the value of an
address of IP type. -/
def firstMissingIP (ipString : IP → String) (st : MachineStatus) (ips : List IP) : Option IP :=
  ips.find? (fun ip => decide (ip ≠ [] ∧ ipString ip ∉ ipValues st))

/-- The new object of an approval: `csr` with one condition of type `Approved` appended,
everything else as in `csr`. -/
def withApproval (csr : CertificateSigningRequest) (message : String) (time : Nat) :
    CertificateSigningRequest :=
  { Meta := csr.Meta
    Spec := csr.Spec
    Status :=
      { Conditions := csr.Status.Conditions ++
          [{ condType := "Approved", Reason := "NodeCSRApprove", Message := message,
             LastUpdateTime := time }]
        Certificate := csr.Status.Certificate } }

/-! ## Concrete scenarios -/

/-- A rendering of 4-byte addresses in dotted decimal, used in the scenarios. -/
def dottedString (ip : IP) : String := ".".intercalate (ip.map toString)

/-- A request with the given identity claim and conditions. -/
def requestOf (username : String) (groups usages : List String)
    (conds : List CertificateSigningRequestCondition) : CertificateSigningRequest :=
  { Meta := { Name := "csr-worker-7", Namespace := "" }
    Spec :=
      { Request := [45, 45, 45]
        Usages := usages
        Username := username
        UID := "uid-7"
        Groups := groups
        Extra := [] }
    Status := { Conditions := conds, Certificate := [] } }

/-- The request of the specification's scenario: node `worker-7`. -/
def worker7Request : CertificateSigningRequest :=
  requestOf "system:node:worker-7" ["system:nodes", "system:authenticated"]
    ["digital signature", "key encipherment", "server auth"] []

/-- A parsed payload with the given subject and SANs. -/
def parsedOf (cn : String) (orgs dns : List String) (ips : List IP) : CertificateRequest :=
  { Subject := { CommonName := cn, Organization := orgs }
    DNSNames := dns
    IPAddresses := ips }

/-- The parsed payload of the scenario, with the given SANs. -/
def worker7Parsed (dns : List String) (ips : List IP) : CertificateRequest :=
  parsedOf "system:node:worker-7" ["system:nodes"] dns ips

/-- A machine bound to node `node` with the given addresses. -/
def machineFor (node : String) (addrs : List NodeAddress) : Machine :=
  { Meta := { Name := "machine-" ++ node, Namespace := "openshift-machine-api" }
    Status := { NodeRef := some { Kind := "Node", Name := node }, Addresses := addrs } }

/-- The target machine of the scenario. -/
def worker7Machine : Machine :=
  machineFor "worker-7"
    [{ addrType := "InternalDNS", Address := "worker-7.cluster.local" },
     { addrType := "InternalIP", Address := "10.0.0.7" },
     { addrType := "Hostname", Address := "worker-7" }]

/-- A controller whose cache holds `obj` under every key, whose payload parser answers
`parsed`, whose machine listing answers `machines` and whose update call answers
`updateErr`. -/
def controllerWith (obj : CertificateSigningRequest) (parsed : Except String CertificateRequest)
    (machines : Except String MachineList) (updateErr : Option String) : Controller :=
  { indexer := fun _ => .ok (some obj)
    machineClient := machines
    clientset := fun _ => updateErr
    ParseCSR := fun _ => parsed
    Now := 1000
    ipString := dottedString }

/-- The controller of the specification's first scenario: the cache holds the request of
node `worker-7`, its payload carries the DNS SAN `worker-7.cluster.local`, the listing
answers the target machine and the update call succeeds. -/
def worker7Controller : Controller :=
  controllerWith worker7Request (.ok (worker7Parsed ["worker-7.cluster.local"] []))
    (.ok ⟨[worker7Machine]⟩) none

/-- The scenario request carrying a Denied condition. -/
def deniedRequest : CertificateSigningRequest :=
  requestOf "system:node:worker-7" ["system:nodes", "system:authenticated"]
    ["digital signature", "key encipherment", "server auth"]
    [{ condType := "Denied", Reason := "Manual", Message := "denied by an operator",
       LastUpdateTime := 5 }]

/-- The controller of the first scenario with `deniedRequest` in the cache. -/
def deniedController : Controller :=
  controllerWith deniedRequest (.ok (worker7Parsed ["worker-7.cluster.local"] []))
    (.ok ⟨[worker7Machine]⟩) none

/-- A controller whose cache lookup fails. -/
def failingLookupController : Controller :=
  { indexer := fun _ => .error "cache unavailable"
    machineClient := .ok ⟨[worker7Machine]⟩
    clientset := fun _ => none
    ParseCSR := fun _ => .ok (worker7Parsed ["worker-7.cluster.local"] [])
    Now := 1000
    ipString := dottedString }

/-- A request that fails the username check and the organization check: username `bob`,
no organization. -/
def bobRequest : CertificateSigningRequest :=
  requestOf "bob" ["system:nodes", "system:authenticated"]
    ["digital signature", "key encipherment", "server auth"] []

/-! ## Facts about the library functions -/

/-- The instrumentation helper does not return within any call depth. -/
theorem logClusterCodePath_never_returns (fuel : Nat) : _logClusterCodePath fuel = none := by
  induction fuel with
  | zero => rfl
  | succ k ih => simp [_logClusterCodePath, ih]

theorem hasPrefix_iff (s p : String) : HasPrefix s p = true ↔ ∃ t : String, s = p ++ t := by
  unfold HasPrefix
  rw [List.isPrefixOf_iff_prefix]
  constructor
  · rintro ⟨t, ht⟩
    exact ⟨⟨t⟩, String.ext (by simp [String.data_append, ht])⟩
  · rintro ⟨t, rfl⟩
    exact ⟨t.data, by simp⟩

theorem trimPrefix_append (p t : String) : TrimPrefix (p ++ t) p = t := by
  have h : HasPrefix (p ++ t) p = true := (hasPrefix_iff _ _).2 ⟨t, rfl⟩
  unfold TrimPrefix
  rw [if_pos h]
  exact String.ext (by simp)

theorem string_append_left_cancel (p a b : String) (h : p ++ a = p ++ b) : a = b := by
  have h2 := congrArg String.data h
  simp only [String.data_append, List.append_cancel_left_eq] at h2
  exact String.ext h2

theorem string_length_lt_one (s : String) : s.length < 1 ↔ s = "" := by
  constructor
  · intro h
    apply String.ext
    have h0 : s.data.length = 0 := by
      have : s.length = s.data.length := rfl
      omega
    exact List.length_eq_zero.1 h0
  · rintro rfl
    decide

theorem foldl_append_singleton (xs acc : List String) :
    xs.foldl (fun acc u => acc ++ [u]) acc = acc ++ xs := by
  induction xs generalizing acc with
  | nil => simp
  | cons x xs ih => simp [ih]

theorem hasAll_iff (xs items : List String) : HasAll xs items = true ↔ ∀ i ∈ items, i ∈ xs := by
  simp [HasAll]

theorem validateCSRContents_ok_iff_aux (req : CertificateSigningRequest) (csr : CertificateRequest)
    (n : String) :
    validateCSRContents req csr = .ok n ↔
      (req.Spec.Username = nodeUserPrefix ++ n ∧ n ≠ "") ∧
      (2 ≤ req.Spec.Groups.length ∧ nodeGroup ∈ req.Spec.Groups ∧
        "system:authenticated" ∈ req.Spec.Groups) ∧
      (req.Spec.Usages.length = 3 ∧ UsageDigitalSignature ∈ req.Spec.Usages ∧
        UsageKeyEncipherment ∈ req.Spec.Usages ∧ UsageServerAuth ∈ req.Spec.Usages) ∧
      csr.Subject.CommonName = req.Spec.Username ∧
      nodeGroup ∈ csr.Subject.Organization := by
  unfold validateCSRContents
  by_cases hp : HasPrefix req.Spec.Username nodeUserPrefix = true
  · obtain ⟨t, ht⟩ := (hasPrefix_iff _ _).1 hp
    have hp2 : HasPrefix (nodeUserPrefix ++ t) nodeUserPrefix = true := (hasPrefix_iff _ _).2 ⟨t, rfl⟩
    have hc : nodeUserPrefix ++ t = nodeUserPrefix ++ n ↔ t = n :=
      ⟨string_append_left_cancel _ _ _, fun h => by rw [h]⟩
    simp only [ht, hp2, trimPrefix_append, foldl_append_singleton, string_length_lt_one, hc,
      List.nil_append, Bool.not_true, Bool.false_eq_true, if_false, Bool.not_eq_true_eq_eq_false,
      Bool.not_eq_true]
    by_cases h1 : t = ""
    · simp only [h1, if_true]
      constructor
      · intro h; cases h
      · rintro ⟨⟨rfl, h⟩, -⟩; exact absurd rfl h
    by_cases h2 : req.Spec.Groups.length < 2
    · simp only [h1, h2, if_true, if_false]
      constructor
      · intro h; cases h
      · rintro ⟨-, ⟨h, -⟩, -⟩; omega
    by_cases h3 : HasAll req.Spec.Groups [nodeGroup, "system:authenticated"] = true
    swap
    · simp only [h1, h2, h3, if_true, if_false]
      constructor
      · intro h; cases h
      · rintro ⟨-, ⟨-, ha, hb⟩, -⟩
        exact absurd ((hasAll_iff _ _).2 (by simp [ha, hb])) h3
    by_cases h4 : req.Spec.Usages.length = 3
    swap
    · simp only [h1, h2, h3, h4, if_true, if_false, ne_eq, not_false_eq_true]
      constructor
      · intro h; cases h
      · rintro ⟨-, -, ⟨h, -⟩, -⟩; exact h.elim
    by_cases h5 : HasAll req.Spec.Usages
        [UsageDigitalSignature, UsageKeyEncipherment, UsageServerAuth] = true
    swap
    · simp only [h1, h2, h3, h4, h5, if_true, if_false, ne_eq, not_true_eq_false]
      constructor
      · intro h; cases h
      · rintro ⟨-, -, ⟨-, ha, hb, hc⟩, -⟩
        exact absurd ((hasAll_iff _ _).2 (by simp [ha, hb, hc])) h5
    by_cases h6 : csr.Subject.CommonName = nodeUserPrefix ++ t
    swap
    · simp only [h1, h2, h3, h4, h5, h6, if_true, if_false, ne_eq, not_true_eq_false,
        not_false_eq_true]
      constructor
      · intro h; cases h
      · rintro ⟨-, -, -, h, -⟩; exact h.elim
    have h3m := (hasAll_iff _ _).1 h3
    have h5m := (hasAll_iff _ _).1 h5
    simp only [List.mem_cons, List.mem_singleton, forall_eq_or_imp, forall_eq, List.not_mem_nil,
      false_imp_iff, imp_false, or_false, implies_true, and_true] at h3m h5m
    by_cases h7 : nodeGroup ∈ csr.Subject.Organization
    · have h7b : (csr.Subject.Organization.any fun o => decide (o = nodeGroup)) = true := by
        simpa using h7
      simp only [h1, h2, h3, h4, h5, h6, h7b, if_true, if_false, ne_eq, not_true_eq_false,
        Bool.true_eq_false, Except.ok.injEq]
      constructor
      · rintro rfl
        exact ⟨⟨rfl, h1⟩, ⟨by omega, h3m.1, h3m.2⟩, ⟨trivial, h5m.1, h5m.2.1, h5m.2.2⟩, trivial, h7⟩
      · rintro ⟨⟨h, -⟩, -⟩; exact h
    · have h7b : (csr.Subject.Organization.any fun o => decide (o = nodeGroup)) = false := by
        simp only [List.any_eq_false, decide_eq_true_eq]
        intro x hx hxe
        exact h7 (hxe ▸ hx)
      simp only [h1, h2, h3, h4, h5, h6, h7b, if_true, if_false, ne_eq, not_true_eq_false]
      constructor
      · intro h; cases h
      · rintro ⟨-, -, -, -, h⟩; exact absurd h h7
  · have hp2 : HasPrefix req.Spec.Username nodeUserPrefix = false := by simpa using hp
    simp only [hp2, Bool.not_false, if_true]
    constructor
    · intro h; cases h
    · rintro ⟨⟨h, -⟩, -⟩
      exact absurd ((hasPrefix_iff _ _).2 ⟨n, h⟩) hp

/-! ## Facts about `authorizeCSR` -/

theorem scanAddresses_foldl (cases : List String) (san : String) (addrs : List NodeAddress)
    (acc : List String) (b : Bool) :
    addrs.foldl (fun (st : List String × Bool) addr =>
      if addr.addrType ∈ cases then
        if san = addr.Address then (st.1, true) else (st.1 ++ [addr.Address], st.2)
      else st) (acc, b) =
    (acc ++ (addrs.filter (fun a => decide (a.addrType ∈ cases ∧ san ≠ a.Address))).map
        (fun a => a.Address),
      b || addrs.any (fun a => decide (a.addrType ∈ cases ∧ san = a.Address))) := by
  induction addrs generalizing acc b with
  | nil => simp
  | cons a rest ih =>
    rw [List.foldl_cons]
    dsimp only
    by_cases h1 : a.addrType ∈ cases
    · by_cases h2 : san = a.Address
      · rw [if_pos h1, if_pos h2, ih]
        simp [h1, h2]
      · rw [if_pos h1, if_neg h2, ih]
        simp [h1, h2]
    · rw [if_neg h1, ih]
      simp [h1]

theorem scanAddresses_found (cases : List String) (san : String) (addrs : List NodeAddress) :
    (scanAddresses cases san addrs).2 = true ↔
      ∃ a ∈ addrs, a.addrType ∈ cases ∧ a.Address = san := by
  unfold scanAddresses
  rw [scanAddresses_foldl]
  simp only [Bool.false_or, List.any_eq_true, decide_eq_true_eq]
  constructor
  · rintro ⟨a, ha, hc, he⟩; exact ⟨a, ha, hc, he.symm⟩
  · rintro ⟨a, ha, hc, he⟩; exact ⟨a, ha, hc, he.symm⟩

theorem scanAddresses_attempted (cases : List String) (san : String) (addrs : List NodeAddress)
    (h : (scanAddresses cases san addrs).2 = false) :
    (scanAddresses cases san addrs).1 =
      (addrs.filter (fun a => decide (a.addrType ∈ cases))).map (fun a => a.Address) := by
  have hnone : ∀ a ∈ addrs, a.addrType ∈ cases → a.Address ≠ san := by
    intro a ha hc he
    have := (scanAddresses_found cases san addrs).2 ⟨a, ha, hc, he⟩
    rw [h] at this
    cases this
  unfold scanAddresses
  rw [scanAddresses_foldl]
  simp only [List.nil_append]
  congr 1
  apply List.filter_congr
  intro a ha
  by_cases hc : a.addrType ∈ cases
  · have := hnone a ha hc
    simp [hc, Ne.symm this]
  · simp [hc]

theorem isDNSType_iff_mem (t : String) :
    t ∈ [NodeInternalDNS, NodeExternalDNS, NodeHostName] ↔ IsDNSType t := by
  simp [IsDNSType]

theorem isIPType_iff_mem (t : String) : t ∈ [NodeInternalIP, NodeExternalIP] ↔ IsIPType t := by
  simp [IsIPType]

theorem isDNSType_not_isIPType (t : String) (hd : IsDNSType t) (hi : IsIPType t) : False := by
  rcases hd with rfl | rfl | rfl <;> revert hi <;> decide

theorem mem_dnsValues (st : MachineStatus) (san : String) :
    san ∈ dnsValues st ↔ ∃ a ∈ st.Addresses, IsDNSType a.addrType ∧ a.Address = san := by
  simp [dnsValues, and_assoc]

theorem mem_ipValues (st : MachineStatus) (san : String) :
    san ∈ ipValues st ↔ ∃ a ∈ st.Addresses, IsIPType a.addrType ∧ a.Address = san := by
  simp [ipValues, and_assoc]

theorem scanDNS_found (st : MachineStatus) (san : String) :
    (scanAddresses [NodeInternalDNS, NodeExternalDNS, NodeHostName] san st.Addresses).2 = true ↔
      san ∈ dnsValues st := by
  rw [scanAddresses_found, mem_dnsValues]
  simp only [isDNSType_iff_mem]

theorem scanIP_found (st : MachineStatus) (san : String) :
    (scanAddresses [NodeInternalIP, NodeExternalIP] san st.Addresses).2 = true ↔
      san ∈ ipValues st := by
  rw [scanAddresses_found, mem_ipValues]
  simp only [isIPType_iff_mem]

theorem scanDNS_attempted (st : MachineStatus) (san : String) (h : san ∉ dnsValues st) :
    (scanAddresses [NodeInternalDNS, NodeExternalDNS, NodeHostName] san st.Addresses).1 =
      dnsValues st := by
  have hf : (scanAddresses [NodeInternalDNS, NodeExternalDNS, NodeHostName] san
      st.Addresses).2 = false := by
    rw [← Bool.not_eq_true, scanDNS_found]; exact h
  rw [scanAddresses_attempted _ _ _ hf]
  unfold dnsValues
  congr 1
  apply List.filter_congr
  intro a _
  simp only [isDNSType_iff_mem]

theorem scanIP_attempted (st : MachineStatus) (san : String) (h : san ∉ ipValues st) :
    (scanAddresses [NodeInternalIP, NodeExternalIP] san st.Addresses).1 = ipValues st := by
  have hf : (scanAddresses [NodeInternalIP, NodeExternalIP] san st.Addresses).2 = false := by
    rw [← Bool.not_eq_true, scanIP_found]; exact h
  rw [scanAddresses_attempted _ _ _ hf]
  unfold ipValues
  congr 1
  apply List.filter_congr
  intro a _
  simp only [isIPType_iff_mem]

theorem checkDNSNames_ok_iff (st : MachineStatus) (dns : List String) :
    checkDNSNames st dns = .ok () ↔ ∀ san ∈ dns, san ≠ "" → san ∈ dnsValues st := by
  induction dns with
  | nil => simp [checkDNSNames]
  | cons san rest ih =>
    unfold checkDNSNames
    by_cases h0 : san = ""
    · have hl : san.length < 1 := (string_length_lt_one san).2 h0
      rw [if_pos hl, ih]
      simp [h0]
    · have hl : ¬ san.length < 1 := fun h => h0 ((string_length_lt_one san).1 h)
      rw [if_neg hl]
      by_cases hm : san ∈ dnsValues st
      · have hf := (scanDNS_found st san).2 hm
        simp only [hf, Bool.not_true, Bool.false_eq_true, if_false, ih]
        simp [hm]
      · have hf : (scanAddresses [NodeInternalDNS, NodeExternalDNS, NodeHostName] san
            st.Addresses).2 = false := by
          rw [← Bool.not_eq_true, scanDNS_found]; exact hm
        simp only [hf, Bool.not_false, if_true]
        constructor
        · intro h; cases h
        · intro h; exact absurd (h san (List.mem_cons_self _ _) h0) hm

theorem checkDNSNames_error (st : MachineStatus) (dns : List String) (san : String)
    (h : firstMissingDNS st dns = some san) :
    checkDNSNames st dns =
      .error ("DNS name '" ++ san ++ "' not in machine names: " ++ " ".intercalate (dnsValues st)) := by
  induction dns with
  | nil => simp [firstMissingDNS] at h
  | cons x rest ih =>
    unfold checkDNSNames
    unfold firstMissingDNS at h
    rw [List.find?_cons] at h
    by_cases hx : x ≠ "" ∧ x ∉ dnsValues st
    · have hd : decide (x ≠ "" ∧ x ∉ dnsValues st) = true := decide_eq_true hx
      rw [hd] at h
      simp only [Option.some.injEq] at h
      subst h
      have hl : ¬ x.length < 1 := fun h => hx.1 ((string_length_lt_one x).1 h)
      have hf : (scanAddresses [NodeInternalDNS, NodeExternalDNS, NodeHostName] x
          st.Addresses).2 = false := by
        rw [← Bool.not_eq_true, scanDNS_found]; exact hx.2
      rw [if_neg hl]
      simp only [hf, Bool.not_false, if_true, scanDNS_attempted st x hx.2, Join]
    · have hd : decide (x ≠ "" ∧ x ∉ dnsValues st) = false := decide_eq_false hx
      rw [hd] at h
      have ih2 := ih h
      by_cases h0 : x = ""
      · have hl : x.length < 1 := (string_length_lt_one x).2 h0
        rw [if_pos hl]; exact ih2
      · have hl : ¬ x.length < 1 := fun h => h0 ((string_length_lt_one x).1 h)
        have hm : x ∈ dnsValues st := by
          by_contra hc; exact hx ⟨h0, hc⟩
        have hf := (scanDNS_found st x).2 hm
        rw [if_neg hl]
        simp only [hf, Bool.not_true, Bool.false_eq_true, if_false]
        exact ih2

theorem ip_length_lt_one (ip : IP) : ip.length < 1 ↔ ip = [] := by
  cases ip <;> simp

theorem checkIPAddresses_ok_iff (ipString : IP → String) (st : MachineStatus) (ips : List IP) :
    checkIPAddresses ipString st ips = .ok () ↔
      ∀ ip ∈ ips, ip ≠ [] → ipString ip ∈ ipValues st := by
  induction ips with
  | nil => simp [checkIPAddresses]
  | cons san rest ih =>
    unfold checkIPAddresses
    by_cases h0 : san = []
    · have hl : san.length < 1 := (ip_length_lt_one san).2 h0
      rw [if_pos hl, ih]
      simp [h0]
    · have hl : ¬ san.length < 1 := fun h => h0 ((ip_length_lt_one san).1 h)
      rw [if_neg hl]
      by_cases hm : ipString san ∈ ipValues st
      · have hf := (scanIP_found st (ipString san)).2 hm
        simp only [hf, Bool.not_true, Bool.false_eq_true, if_false, ih]
        simp [hm]
      · have hf : (scanAddresses [NodeInternalIP, NodeExternalIP] (ipString san)
            st.Addresses).2 = false := by
          rw [← Bool.not_eq_true, scanIP_found]; exact hm
        simp only [hf, Bool.not_false, if_true]
        constructor
        · intro h; cases h
        · intro h; exact absurd (h san (List.mem_cons_self _ _) h0) hm

theorem checkIPAddresses_error (ipString : IP → String) (st : MachineStatus) (ips : List IP)
    (ip : IP) (h : firstMissingIP ipString st ips = some ip) :
    checkIPAddresses ipString st ips =
      .error ("IP address '" ++ ipString ip ++ "' not in machine addresses: " ++
        " ".intercalate (ipValues st)) := by
  induction ips with
  | nil => simp [firstMissingIP] at h
  | cons x rest ih =>
    unfold checkIPAddresses
    unfold firstMissingIP at h
    rw [List.find?_cons] at h
    by_cases hx : x ≠ [] ∧ ipString x ∉ ipValues st
    · have hd : decide (x ≠ [] ∧ ipString x ∉ ipValues st) = true := decide_eq_true hx
      rw [hd] at h
      simp only [Option.some.injEq] at h
      subst h
      have hl : ¬ x.length < 1 := fun h => hx.1 ((ip_length_lt_one x).1 h)
      have hf : (scanAddresses [NodeInternalIP, NodeExternalIP] (ipString x)
          st.Addresses).2 = false := by
        rw [← Bool.not_eq_true, scanIP_found]; exact hx.2
      rw [if_neg hl]
      simp only [hf, Bool.not_false, if_true, scanIP_attempted st (ipString x) hx.2, Join]
    · have hd : decide (x ≠ [] ∧ ipString x ∉ ipValues st) = false := decide_eq_false hx
      rw [hd] at h
      have ih2 := ih h
      by_cases h0 : x = []
      · have hl : x.length < 1 := (ip_length_lt_one x).2 h0
        rw [if_pos hl]; exact ih2
      · have hl : ¬ x.length < 1 := fun h => h0 ((ip_length_lt_one x).1 h)
        have hm : ipString x ∈ ipValues st := by
          by_contra hc; exact hx ⟨h0, hc⟩
        have hf := (scanIP_found st (ipString x)).2 hm
        rw [if_neg hl]
        simp only [hf, Bool.not_true, Bool.false_eq_true, if_false]
        exact ih2

theorem firstMissingDNS_none_iff (st : MachineStatus) (dns : List String) :
    firstMissingDNS st dns = none ↔ checkDNSNames st dns = .ok () := by
  rw [checkDNSNames_ok_iff]
  unfold firstMissingDNS
  rw [List.find?_eq_none]
  simp only [decide_eq_true_eq, not_and, not_not]

theorem findTargetMachine_some (items : List Machine) (n : String) (st : MachineStatus) :
    findTargetMachine items n = some st ↔ ∃ m, IsTargetMachine items n m ∧ m.Status = st := by
  induction items with
  | nil =>
    constructor
    · intro h
      simp [findTargetMachine] at h
    · rintro ⟨m, ⟨before, after, h, -⟩, -⟩
      simp at h
  | cons x rest ih =>
    by_cases hx : RefersTo x n
    · obtain ⟨ref, hr, hn⟩ := hx
      have hf : findTargetMachine (x :: rest) n = some x.Status := by
        simp [findTargetMachine, hr, hn]
      rw [hf]
      constructor
      · intro h
        exact ⟨x, ⟨[], rest, rfl, by simp, ref, hr, hn⟩, Option.some.inj h⟩
      · rintro ⟨m, ⟨before, after, h, hb, -⟩, hs⟩
        cases before with
        | nil =>
          simp only [List.nil_append, List.cons.injEq] at h
          rw [h.1, hs]
        | cons b bs =>
          simp only [List.cons_append, List.cons.injEq] at h
          exact absurd ⟨ref, h.1 ▸ hr, hn⟩ (hb b (List.mem_cons_self _ _))
    · have hf : findTargetMachine (x :: rest) n = findTargetMachine rest n := by
        cases hr : x.Status.NodeRef with
        | none => simp [findTargetMachine, hr]
        | some ref =>
          have hne : ref.Name ≠ n := fun he => hx ⟨ref, hr, he⟩
          simp [findTargetMachine, hr, hne]
      rw [hf, ih]
      constructor
      · rintro ⟨m, ⟨before, after, h, hb, hm⟩, hs⟩
        refine ⟨m, ⟨x :: before, after, by simp [h], ?_, hm⟩, hs⟩
        intro y hy
        rcases List.mem_cons.1 hy with rfl | hy
        · exact hx
        · exact hb y hy
      · rintro ⟨m, ⟨before, after, h, hb, hm⟩, hs⟩
        cases before with
        | nil =>
          simp only [List.nil_append, List.cons.injEq] at h
          exact absurd (h.1 ▸ hm) hx
        | cons b bs =>
          simp only [List.cons_append, List.cons.injEq] at h
          exact ⟨m, ⟨bs, after, h.2, fun y hy => hb y (List.mem_cons_of_mem _ hy), hm⟩, hs⟩

theorem findTargetMachine_none (items : List Machine) (n : String) :
    findTargetMachine items n = none ↔ ∀ m ∈ items, ¬ RefersTo m n := by
  induction items with
  | nil => simp [findTargetMachine]
  | cons x rest ih =>
    by_cases hx : RefersTo x n
    · obtain ⟨ref, hr, hn⟩ := hx
      have hf : findTargetMachine (x :: rest) n = some x.Status := by
        simp [findTargetMachine, hr, hn]
      rw [hf]
      constructor
      · intro h; cases h
      · intro h; exact absurd ⟨ref, hr, hn⟩ (h x (List.mem_cons_self _ _))
    · have hf : findTargetMachine (x :: rest) n = findTargetMachine rest n := by
        cases hr : x.Status.NodeRef with
        | none => simp [findTargetMachine, hr]
        | some ref =>
          have hne : ref.Name ≠ n := fun he => hx ⟨ref, hr, he⟩
          simp [findTargetMachine, hr, hne]
      rw [hf, ih]
      simp [hx]

theorem authorizeCSR_ok_iff (ipString : IP → String) (ml : MachineList)
    (req : CertificateSigningRequest) (csr : CertificateRequest) :
    authorizeCSR ipString (some ml) (some req) (some csr) = .ok () ↔
      ∃ n m, validateCSRContents req csr = .ok n ∧ IsTargetMachine ml.Items n m ∧
        (∀ san ∈ csr.DNSNames, san ≠ "" → san ∈ dnsValues m.Status) ∧
        (∀ ip ∈ csr.IPAddresses, ip ≠ [] → ipString ip ∈ ipValues m.Status) := by
  unfold authorizeCSR
  simp only
  constructor
  · intro h
    split_ifs at h with hlen
    split at h
    · cases h
    · rename_i n hv
      split at h
      · cases h
      · rename_i st hf
        obtain ⟨m, hm, rfl⟩ := (findTargetMachine_some _ _ _).1 hf
        split at h
        · cases h
        · rename_i hd
          exact ⟨n, m, hv, hm, (checkDNSNames_ok_iff _ _).1 hd,
            (checkIPAddresses_ok_iff _ _ _).1 h⟩
  · rintro ⟨n, m, hv, hm, hd, hi⟩
    have hne : ¬ ml.Items.length < 1 := by
      obtain ⟨before, after, h, -⟩ := hm
      rw [h]; simp
    rw [if_neg hne, hv]
    simp only
    rw [(findTargetMachine_some _ _ _).2 ⟨m, hm, rfl⟩]
    simp only
    rw [(checkDNSNames_ok_iff _ _).2 hd]
    simp only
    exact (checkIPAddresses_ok_iff _ _ _).2 hi

/-! ## Facts about `handleNewCSR` -/

theorem approve_eq (c : Controller) (csr : CertificateSigningRequest) (msg : String) :
    approve c csr msg =
      { err := c.clientset (withApproval csr msg c.Now),
        updates := [withApproval csr msg c.Now] } := by
  unfold approve
  have hw : ({ csr with Status := { csr.Status with Conditions := csr.Status.Conditions ++
        [{ condType := CertificateApproved, Reason := "NodeCSRApprove", Message := msg,
           LastUpdateTime := c.Now }] } } : CertificateSigningRequest) =
      withApproval csr msg c.Now := rfl
  simp only [hw]
  cases c.clientset (withApproval csr msg c.Now) <;> rfl

theorem any_approved_iff (conds : List CertificateSigningRequestCondition) :
    conds.any (fun c => decide (c.condType = CertificateApproved)) = true ↔
      ∃ cond ∈ conds, cond.condType = CertificateApproved := by
  simp

theorem handleNewCSR_approved (c : Controller) (key : String) (csr : CertificateSigningRequest)
    (hget : c.indexer key = .ok (some csr))
    (happ : ∃ cond ∈ csr.Status.Conditions, cond.condType = CertificateApproved) :
    handleNewCSR c key = { err := none, updates := [] } := by
  unfold handleNewCSR
  rw [hget]
  simp only
  rw [if_pos ((any_approved_iff _).2 happ)]

theorem handleNewCSR_listed (c : Controller) (key : String) (csr : CertificateSigningRequest)
    (parsed : CertificateRequest) (ml : MachineList)
    (hget : c.indexer key = .ok (some csr))
    (hna : ∀ cond ∈ csr.Status.Conditions, cond.condType ≠ CertificateApproved)
    (hparse : c.ParseCSR csr = .ok parsed) (hlist : c.machineClient = .ok ml) :
    handleNewCSR c key =
      match authorizeCSR c.ipString (some ml) (some csr) (some parsed) with
      | .error _ => { err := none, updates := [] }
      | .ok () => approve c csr "This CSR was approved by the Node CSR Approver" := by
  have hany : ¬ (csr.Status.Conditions.any
      (fun c => decide (c.condType = CertificateApproved)) = true) := by
    rw [any_approved_iff]
    rintro ⟨cond, hc, he⟩
    exact hna cond hc he
  unfold handleNewCSR
  rw [hget]
  simp only
  rw [if_neg hany, hparse]
  simp only
  rw [hlist]

theorem handleNewCSR_degraded (c : Controller) (key : String) (csr : CertificateSigningRequest)
    (parsed : CertificateRequest) (e : String)
    (hget : c.indexer key = .ok (some csr))
    (hna : ∀ cond ∈ csr.Status.Conditions, cond.condType ≠ CertificateApproved)
    (hparse : c.ParseCSR csr = .ok parsed) (hlist : c.machineClient = .error e) :
    handleNewCSR c key =
      match validateCSRContents csr parsed with
      | .error _ => { err := none, updates := [] }
      | .ok _ => approve c csr
          ("This CSR was approved by the Node CSR Approver" ++ " (no SAN validation)") := by
  have hany : ¬ (csr.Status.Conditions.any
      (fun c => decide (c.condType = CertificateApproved)) = true) := by
    rw [any_approved_iff]
    rintro ⟨cond, hc, he⟩
    exact hna cond hc he
  unfold handleNewCSR
  rw [hget]
  simp only
  rw [if_neg hany, hparse]
  simp only
  rw [hlist]

theorem withApproval_approved (csr : CertificateSigningRequest) (msg : String) (t : Nat) :
    ∃ cond ∈ (withApproval csr msg t).Status.Conditions, cond.condType = CertificateApproved :=
  ⟨{ condType := "Approved", Reason := "NodeCSRApprove", Message := msg, LastUpdateTime := t },
    by simp [withApproval], rfl⟩

theorem mem_updates_approved (c : Controller) (key : String) (u : CertificateSigningRequest)
    (h : u ∈ (handleNewCSR c key).updates) :
    ∃ cond ∈ u.Status.Conditions, cond.condType = CertificateApproved := by
  unfold handleNewCSR at h
  cases hi : c.indexer key with
  | error e => rw [hi] at h; simp at h
  | ok o =>
    cases o with
    | none => rw [hi] at h; simp at h
    | some obj =>
      rw [hi] at h
      simp only at h
      split_ifs at h with ha
      · simp at h
      · cases hp : c.ParseCSR obj with
        | error e => rw [hp] at h; simp at h
        | ok parsed =>
          rw [hp] at h
          simp only at h
          cases hl : c.machineClient with
          | ok ml =>
            rw [hl] at h
            simp only at h
            cases hz : authorizeCSR c.ipString (some ml) (some obj) (some parsed) with
            | error e => rw [hz] at h; simp at h
            | ok v =>
              rw [hz] at h
              simp only [approve_eq, List.mem_singleton] at h
              rw [h]
              exact withApproval_approved _ _ _
          | error e =>
            rw [hl] at h
            simp only at h
            cases hv : validateCSRContents obj parsed with
            | error e => rw [hv] at h; simp at h
            | ok v =>
              rw [hv] at h
              simp only [approve_eq, List.mem_singleton] at h
              rw [h]
              exact withApproval_approved _ _ _

/-! ## Facts about the five checks -/

theorem nodeUserPrefix_eq : nodeUserPrefix = "system:node:" := by decide

theorem specCheck_username (req : CertificateSigningRequest) (csr : CertificateRequest) :
    specCheck .username req csr = true ↔
      HasPrefix req.Spec.Username nodeUserPrefix = true ∧
        ¬ (TrimPrefix req.Spec.Username nodeUserPrefix).length < 1 := by
  simp [specCheck, nodeUserPrefix_eq]
  intro _; omega

theorem specCheck_groups (req : CertificateSigningRequest) (csr : CertificateRequest) :
    specCheck .groups req csr = true ↔
      ¬ req.Spec.Groups.length < 2 ∧
        HasAll req.Spec.Groups [nodeGroup, "system:authenticated"] = true := by
  simp [specCheck, HasAll, nodeGroup, and_assoc]

theorem specCheck_usages (req : CertificateSigningRequest) (csr : CertificateRequest) :
    specCheck .usages req csr = true ↔
      req.Spec.Usages.length = 3 ∧
        HasAll req.Spec.Usages
          [UsageDigitalSignature, UsageKeyEncipherment, UsageServerAuth] = true := by
  simp [specCheck, HasAll, and_assoc]

theorem specCheck_commonName (req : CertificateSigningRequest) (csr : CertificateRequest) :
    specCheck .commonName req csr = true ↔ csr.Subject.CommonName = req.Spec.Username := by
  simp [specCheck]

theorem specCheck_organization (req : CertificateSigningRequest) (csr : CertificateRequest) :
    specCheck .organization req csr = true ↔
      (csr.Subject.Organization.any fun o => decide (o = nodeGroup)) = true := by
  simp [specCheck, nodeGroup]

theorem reasonField_mismatched (a b : String) :
    reasonField ("Mismatched CommonName " ++ a ++ " != " ++ b) = some .commonName := by
  have h : HasPrefix ("Mismatched CommonName " ++ a ++ " != " ++ b) "Mismatched CommonName "
      = true := (hasPrefix_iff _ _).2 ⟨a ++ " != " ++ b, by simp [String.append_assoc]⟩
  unfold reasonField
  rw [if_pos h]

theorem validateCSRContents_first_failing (req : CertificateSigningRequest)
    (csr : CertificateRequest) (k : Check) (hfail : specCheck k req csr = false)
    (hearlier : ∀ j : Check, j.idx < k.idx → specCheck j req csr = true) :
    ∃ r, validateCSRContents req csr = .error r ∧ reasonField r = some k := by
  have hu := specCheck_username req csr
  have hg := specCheck_groups req csr
  have hs := specCheck_usages req csr
  have hc := specCheck_commonName req csr
  have ho := specCheck_organization req csr
  cases k with
  | username =>
    rw [hfail] at hu
    by_cases hp : HasPrefix req.Spec.Username nodeUserPrefix = true
    · have hl : (TrimPrefix req.Spec.Username nodeUserPrefix).length < 1 := by
        by_contra hl; exact absurd (hu.2 ⟨hp, hl⟩) (by simp)
      refine ⟨"Empty name", ?_, by decide⟩
      unfold validateCSRContents
      simp [hp, hl]
    · refine ⟨"Doesn't match expected prefix", ?_, by decide⟩
      unfold validateCSRContents
      simp [hp]
  | groups =>
    have h1 := hu.1 (hearlier .username (by decide))
    rw [hfail] at hg
    by_cases hl : req.Spec.Groups.length < 2
    · refine ⟨"Too few groups", ?_, by decide⟩
      unfold validateCSRContents
      simp [h1.1, h1.2, hl]
    · have ha : HasAll req.Spec.Groups [nodeGroup, "system:authenticated"] = false := by
        rw [← Bool.not_eq_true]; intro ha; exact absurd (hg.2 ⟨hl, ha⟩) (by simp)
      refine ⟨"Not in system:authenticated", ?_, by decide⟩
      unfold validateCSRContents
      simp [h1.1, h1.2, hl, ha]
  | usages =>
    have h1 := hu.1 (hearlier .username (by decide))
    have h2 := hg.1 (hearlier .groups (by decide))
    rw [hfail] at hs
    by_cases hl : req.Spec.Usages.length = 3
    · have ha : HasAll req.Spec.Usages
          [UsageDigitalSignature, UsageKeyEncipherment, UsageServerAuth] = false := by
        rw [← Bool.not_eq_true]; intro ha; exact absurd (hs.2 ⟨hl, ha⟩) (by simp)
      refine ⟨"Missing usages", ?_, by decide⟩
      unfold validateCSRContents
      simp [h1.1, h1.2, h2.1, h2.2, hl, ha, foldl_append_singleton]
    · refine ⟨"Too few usages", ?_, by decide⟩
      unfold validateCSRContents
      simp [h1.1, h1.2, h2.1, h2.2, hl]
  | commonName =>
    have h1 := hu.1 (hearlier .username (by decide))
    have h2 := hg.1 (hearlier .groups (by decide))
    have h3 := hs.1 (hearlier .usages (by decide))
    rw [hfail] at hc
    have hne : csr.Subject.CommonName ≠ req.Spec.Username := by
      intro he; exact absurd (hc.2 he) (by simp)
    refine ⟨"Mismatched CommonName " ++ csr.Subject.CommonName ++ " != " ++ req.Spec.Username,
      ?_, reasonField_mismatched _ _⟩
    unfold validateCSRContents
    simp [h1.1, h1.2, h2.1, h2.2, h3.1, h3.2, hne, foldl_append_singleton]
  | organization =>
    have h1 := hu.1 (hearlier .username (by decide))
    have h2 := hg.1 (hearlier .groups (by decide))
    have h3 := hs.1 (hearlier .usages (by decide))
    have h4 := hc.1 (hearlier .commonName (by decide))
    rw [hfail] at ho
    have hno : (csr.Subject.Organization.any fun o => decide (o = nodeGroup)) = false := by
      rw [← Bool.not_eq_true]; intro ha; exact absurd (ho.2 ha) (by simp)
    refine ⟨"Organization doesn't include " ++ nodeGroup, ?_, by decide⟩
    unfold validateCSRContents
    simp [h1.1, h1.2, h2.1, h2.2, h3.1, h3.2, h4, hno, foldl_append_singleton]

/-! ## Identity validation -/

/-- C2: every request accepted by `validateCSRContents` has a usages list that is a
permutation of digital signature, key encipherment, server auth; a request whose usages
are not such a permutation (a strict subset, a strict superset, a repetition) is
rejected. -/
theorem C2_usages_permutation (req : CertificateSigningRequest) (csr : CertificateRequest) :
    (∀ n, validateCSRContents req csr = .ok n →
      req.Spec.Usages.Perm [UsageDigitalSignature, UsageKeyEncipherment, UsageServerAuth]) ∧
    (¬ req.Spec.Usages.Perm [UsageDigitalSignature, UsageKeyEncipherment, UsageServerAuth] →
      ∃ r, validateCSRContents req csr = .error r) := by
  have hperm : ∀ n, validateCSRContents req csr = .ok n →
      req.Spec.Usages.Perm [UsageDigitalSignature, UsageKeyEncipherment, UsageServerAuth] := by
    intro n h
    obtain ⟨-, -, ⟨hlen, h1, h2, h3⟩, -⟩ := (validateCSRContents_ok_iff_aux req csr n).1 h
    have hnd : [UsageDigitalSignature, UsageKeyEncipherment, UsageServerAuth].Nodup := by
      decide
    have hsub : [UsageDigitalSignature, UsageKeyEncipherment, UsageServerAuth] ⊆
        req.Spec.Usages := by
      intro x hx
      simp only [List.mem_cons, List.mem_singleton, List.not_mem_nil, or_false] at hx
      rcases hx with rfl | rfl | rfl
      · exact h1
      · exact h2
      · exact h3
    have hsp := List.subperm_of_subset hnd hsub
    exact (hsp.perm_of_length_le (by rw [hlen]; simp)).symm
  refine ⟨hperm, ?_⟩
  intro hnp
  cases hv : validateCSRContents req csr with
  | error r => exact ⟨r, rfl⟩
  | ok n => exact absurd (hperm n hv) hnp

/-- Witness of C2: the scenario request is accepted and its usages are a permutation; the
same request with a fourth usage is rejected. -/
theorem C2_usages_permutation_witness :
    worker7Request.Spec.Usages.Perm
        [UsageDigitalSignature, UsageKeyEncipherment, UsageServerAuth] ∧
      ∃ r, validateCSRContents
        (requestOf "system:node:worker-7" ["system:nodes", "system:authenticated"]
          ["digital signature", "key encipherment", "server auth", "client auth"] [])
        (worker7Parsed [] []) = .error r :=
  ⟨(C2_usages_permutation worker7Request (worker7Parsed [] [])).1 "worker-7" rfl,
   (C2_usages_permutation
      (requestOf "system:node:worker-7" ["system:nodes", "system:authenticated"]
        ["digital signature", "key encipherment", "server auth", "client auth"] [])
      (worker7Parsed [] [])).2
      (fun h => absurd h.length_eq (by decide))⟩

/-! ## Machine authorization -/

/-- C3: if `authorizeCSR` returns no error, then `validateCSRContents` accepts the request
with some node name `n`, the list holds a machine bound to `n`, and for the first such
machine every non-empty DNS SAN is the value of one of its addresses of type InternalDNS,
ExternalDNS or Hostname and the string form of every non-empty IP SAN is the value of one
of its addresses of type InternalIP or ExternalIP; so no authorized non-empty DNS SAN
equals addresses of IP type only, and no authorized non-empty IP SAN equals addresses of
DNS or hostname type only. -/
theorem C3_authorizeCSR_sound (ipString : IP → String) (ml : MachineList)
    (req : CertificateSigningRequest) (csr : CertificateRequest)
    (h : authorizeCSR ipString (some ml) (some req) (some csr) = .ok ()) :
    ∃ n m, validateCSRContents req csr = .ok n ∧ m ∈ ml.Items ∧
      IsTargetMachine ml.Items n m ∧
      (∀ san ∈ csr.DNSNames, san ≠ "" →
        ∃ a ∈ m.Status.Addresses, IsDNSType a.addrType ∧ a.Address = san) ∧
      (∀ ip ∈ csr.IPAddresses, ip ≠ [] →
        ∃ a ∈ m.Status.Addresses, IsIPType a.addrType ∧ a.Address = ipString ip) ∧
      (∀ san ∈ csr.DNSNames, san ≠ "" →
        ¬ ∀ a ∈ m.Status.Addresses, a.Address = san → IsIPType a.addrType) ∧
      (∀ ip ∈ csr.IPAddresses, ip ≠ [] →
        ¬ ∀ a ∈ m.Status.Addresses, a.Address = ipString ip → IsDNSType a.addrType) := by
  obtain ⟨n, m, hv, hm, hd, hi⟩ := (authorizeCSR_ok_iff ipString ml req csr).1 h
  refine ⟨n, m, hv, ?_, hm, ?_, ?_, ?_, ?_⟩
  · obtain ⟨before, after, hl, -⟩ := hm
    rw [hl]; simp
  · intro san hs hne
    exact (mem_dnsValues _ _).1 (hd san hs hne)
  · intro ip hs hne
    exact (mem_ipValues _ _).1 (hi ip hs hne)
  · intro san hs hne hall
    obtain ⟨a, ha, ht, he⟩ := (mem_dnsValues _ _).1 (hd san hs hne)
    exact isDNSType_not_isIPType _ ht (hall a ha he)
  · intro ip hs hne hall
    obtain ⟨a, ha, ht, he⟩ := (mem_ipValues _ _).1 (hi ip hs hne)
    exact isDNSType_not_isIPType _ (hall a ha he) ht

/-- Witness of C3: the scenario request with a DNS SAN and an IP SAN of machine
`worker-7`. -/
theorem C3_authorizeCSR_sound_witness :
    authorizeCSR dottedString (some ⟨[worker7Machine]⟩) (some worker7Request)
        (some (worker7Parsed ["worker-7.cluster.local"] [[10, 0, 0, 7]])) = .ok () ∧
      ∃ n m, validateCSRContents worker7Request
          (worker7Parsed ["worker-7.cluster.local"] [[10, 0, 0, 7]]) = .ok n ∧
        m ∈ [worker7Machine] ∧ IsTargetMachine [worker7Machine] n m ∧
        (∀ san ∈ ["worker-7.cluster.local"], san ≠ "" →
          ∃ a ∈ m.Status.Addresses, IsDNSType a.addrType ∧ a.Address = san) ∧
        (∀ ip ∈ [[10, 0, 0, 7]], ip ≠ [] →
          ∃ a ∈ m.Status.Addresses, IsIPType a.addrType ∧ a.Address = dottedString ip) ∧
        (∀ san ∈ ["worker-7.cluster.local"], san ≠ "" →
          ¬ ∀ a ∈ m.Status.Addresses, a.Address = san → IsIPType a.addrType) ∧
        (∀ ip ∈ [[10, 0, 0, 7]], ip ≠ [] →
          ¬ ∀ a ∈ m.Status.Addresses, a.Address = dottedString ip → IsDNSType a.addrType) :=
  ⟨rfl, C3_authorizeCSR_sound dottedString ⟨[worker7Machine]⟩ worker7Request
    (worker7Parsed ["worker-7.cluster.local"] [[10, 0, 0, 7]]) rfl⟩

/-- The body of `authorizeCSR`, once the identity checks have passed with node name `n` and
`m` is the first machine bound to `n`: for the first non-empty DNS SAN absent from the
values of `m`'s addresses of DNS or hostname type the result is
`DNS name '<san>' not in machine names: ` followed by all those values; failing such a DNS
SAN, for the first non-empty IP SAN absent from the values of `m`'s addresses of IP type it
is `IP address '<ip>' not in machine addresses: ` followed by all those values. -/
theorem authorizeCSR_body_rejection_message (ipString : IP → String) (ml : MachineList)
    (req : CertificateSigningRequest) (csr : CertificateRequest) (n : String) (m : Machine)
    (hv : validateCSRContents req csr = .ok n) (hm : IsTargetMachine ml.Items n m) :
    (∀ san, firstMissingDNS m.Status csr.DNSNames = some san →
      authorizeCSR ipString (some ml) (some req) (some csr) =
        .error ("DNS name '" ++ san ++ "' not in machine names: " ++
          " ".intercalate (dnsValues m.Status))) ∧
    (∀ ip, firstMissingDNS m.Status csr.DNSNames = none →
      firstMissingIP ipString m.Status csr.IPAddresses = some ip →
      authorizeCSR ipString (some ml) (some req) (some csr) =
        .error ("IP address '" ++ ipString ip ++ "' not in machine addresses: " ++
          " ".intercalate (ipValues m.Status))) ∧
    ((∃ san ∈ csr.DNSNames, san ≠ "" ∧ san ∉ dnsValues m.Status) ∨
        (∃ ip ∈ csr.IPAddresses, ip ≠ [] ∧ ipString ip ∉ ipValues m.Status) →
      (∃ r, authorizeCSR ipString (some ml) (some req) (some csr) = .error r) ∧
        ((∃ san, firstMissingDNS m.Status csr.DNSNames = some san) ∨
          (firstMissingDNS m.Status csr.DNSNames = none ∧
            ∃ ip, firstMissingIP ipString m.Status csr.IPAddresses = some ip))) := by
  have hne : ¬ ml.Items.length < 1 := by
    obtain ⟨before, after, h, -⟩ := hm
    rw [h]; simp
  have hf := (findTargetMachine_some ml.Items n m.Status).2 ⟨m, hm, rfl⟩
  refine ⟨?_, ?_, ?_⟩
  rotate_left 2
  · intro habs
    constructor
    · cases hr : authorizeCSR ipString (some ml) (some req) (some csr) with
      | error r => exact ⟨r, rfl⟩
      | ok u =>
        exfalso
        obtain ⟨n2, m2, hv2, hm2, hd, hi⟩ := (authorizeCSR_ok_iff ipString ml req csr).1 hr
        have hn : n2 = n := by
          rw [hv] at hv2; exact (Except.ok.inj hv2).symm
        subst hn
        have hst : m2.Status = m.Status := by
          have h1 := (findTargetMachine_some ml.Items n2 m2.Status).2 ⟨m2, hm2, rfl⟩
          rw [hf] at h1
          exact (Option.some.inj h1).symm
        rw [hst] at hd hi
        rcases habs with ⟨san, hs, hne2, hab⟩ | ⟨ip, hs, hne2, hab⟩
        · exact hab (hd san hs hne2)
        · exact hab (hi ip hs hne2)
    · cases hd : firstMissingDNS m.Status csr.DNSNames with
      | some san => exact Or.inl ⟨san, rfl⟩
      | none =>
        refine Or.inr ⟨rfl, ?_⟩
        have hdok := (checkDNSNames_ok_iff _ _).1 ((firstMissingDNS_none_iff _ _).1 hd)
        rcases habs with ⟨san, hs, hne2, hab⟩ | ⟨ip, hs, hne2, hab⟩
        · exact absurd (hdok san hs hne2) hab
        · cases hi : firstMissingIP ipString m.Status csr.IPAddresses with
          | some ip2 => exact ⟨ip2, rfl⟩
          | none =>
            exfalso
            unfold firstMissingIP at hi
            rw [List.find?_eq_none] at hi
            have := hi ip hs
            simp only [decide_eq_true_eq, not_and, not_not] at this
            exact hab (this hne2)
  · intro san hs
    unfold authorizeCSR
    simp only
    rw [if_neg hne, hv]
    simp only
    rw [hf]
    simp only
    rw [checkDNSNames_error _ _ _ hs]
  · intro ip hnone hs
    unfold authorizeCSR
    simp only
    rw [if_neg hne, hv]
    simp only
    rw [hf]
    simp only
    rw [(firstMissingDNS_none_iff _ _).1 hnone]
    simp only
    exact checkIPAddresses_error _ _ _ _ hs

/-! ## Rejection reasons -/

/-- The reason given for a usages list of four entries is `Too few usages`. -/
theorem validateCSRContents_four_usages :
    validateCSRContents
      (requestOf "system:node:worker-7" ["system:nodes", "system:authenticated"]
        ["digital signature", "key encipherment", "server auth", "client auth"] [])
      (worker7Parsed [] []) = .error "Too few usages" := rfl

/-- The reason given for groups that lack only `system:nodes` is
`Not in system:authenticated`. -/
theorem validateCSRContents_groups_without_nodes :
    validateCSRContents
      (requestOf "system:node:worker-7" ["system:authenticated", "system:masters"]
        ["digital signature", "key encipherment", "server auth"] [])
      (worker7Parsed [] []) = .error "Not in system:authenticated" := rfl

/-- C7: for a non-empty machine list, a rejection of `validateCSRContents` with reason `r`
is the result of `authorizeCSR`, with the same reason `r`, whatever the list holds. -/
theorem C7_authorizeCSR_propagates_rejection (ipString : IP → String) (ml : MachineList)
    (req : CertificateSigningRequest) (csr : CertificateRequest) (r : String)
    (hne : ml.Items ≠ []) (hv : validateCSRContents req csr = .error r) :
    authorizeCSR ipString (some ml) (some req) (some csr) = .error r := by
  have hlen : ¬ ml.Items.length < 1 := by
    cases hl : ml.Items with
    | nil => exact absurd hl hne
    | cons x xs => simp
  unfold authorizeCSR
  simp only
  rw [if_neg hlen, hv]

/-- Witness of C7: a request whose common name differs from its username, against the
scenario's machine list. -/
theorem C7_authorizeCSR_propagates_rejection_witness :
    validateCSRContents worker7Request
        (parsedOf "system:node:worker-8" ["system:nodes"] ["worker-7.cluster.local"] []) =
      .error "Mismatched CommonName system:node:worker-8 != system:node:worker-7" ∧
    authorizeCSR dottedString (some ⟨[worker7Machine]⟩) (some worker7Request)
        (some (parsedOf "system:node:worker-8" ["system:nodes"] ["worker-7.cluster.local"] [])) =
      .error "Mismatched CommonName system:node:worker-8 != system:node:worker-7" :=
  ⟨rfl, C7_authorizeCSR_propagates_rejection dottedString ⟨[worker7Machine]⟩ worker7Request
    (parsedOf "system:node:worker-8" ["system:nodes"] ["worker-7.cluster.local"] [])
    "Mismatched CommonName system:node:worker-8 != system:node:worker-7"
    (by simp) rfl⟩

/-! ## Reconciliation -/

/-- C8: when the cached request has a condition of type Approved, `handleNewCSR` returns
no error and submits no update, whatever the other fields, the payload parser and the
machine listing are; in particular this holds when the cached request is an object that
some call of `handleNewCSR` submitted. -/
theorem C8_handleNewCSR_idempotent (c : Controller) (key : String)
    (csr : CertificateSigningRequest) (hget : c.indexer key = .ok (some csr)) :
    ((∃ cond ∈ csr.Status.Conditions, cond.condType = "Approved") →
      handleNewCSR c key = { err := none, updates := [] }) ∧
    (∀ (c0 : Controller) (key0 : String), csr ∈ (handleNewCSR c0 key0).updates →
      handleNewCSR c key = { err := none, updates := [] }) :=
  ⟨fun h => handleNewCSR_approved c key csr hget h,
   fun c0 key0 h => handleNewCSR_approved c key csr hget (mem_updates_approved c0 key0 csr h)⟩

/-- Witness of C8: the object submitted by the approval of the scenario request is
reconciled again, with a failing update call at hand. -/
theorem C8_handleNewCSR_idempotent_witness :
    (handleNewCSR (controllerWith worker7Request
        (.ok (worker7Parsed ["worker-7.cluster.local"] [])) (.ok ⟨[worker7Machine]⟩) none)
        "csr-worker-7").updates =
      [withApproval worker7Request "This CSR was approved by the Node CSR Approver" 1000] ∧
    handleNewCSR (controllerWith
        (withApproval worker7Request "This CSR was approved by the Node CSR Approver" 1000)
        (.ok (worker7Parsed ["worker-7.cluster.local"] [])) (.ok ⟨[worker7Machine]⟩)
        (some "conflict")) "csr-worker-7" = { err := none, updates := [] } :=
  ⟨rfl, (C8_handleNewCSR_idempotent
    (controllerWith
      (withApproval worker7Request "This CSR was approved by the Node CSR Approver" 1000)
      (.ok (worker7Parsed ["worker-7.cluster.local"] [])) (.ok ⟨[worker7Machine]⟩)
      (some "conflict"))
    "csr-worker-7"
    (withApproval worker7Request "This CSR was approved by the Node CSR Approver" 1000) rfl).2
    (controllerWith worker7Request
        (.ok (worker7Parsed ["worker-7.cluster.local"] [])) (.ok ⟨[worker7Machine]⟩) none)
    "csr-worker-7" (List.mem_singleton.2 rfl)⟩

/-- The body of `handleNewCSR`, for a cached request without an Approved condition whose
payload parses, when the listing succeeds and the body of `authorizeCSR` yields nil: one
object is submitted, equal to the cached one but for one appended Approved condition. -/
theorem handleNewCSR_body_approves_frame (c : Controller) (key : String)
    (csr : CertificateSigningRequest) (parsed : CertificateRequest) (ml : MachineList)
    (hget : c.indexer key = .ok (some csr))
    (hna : ∀ cond ∈ csr.Status.Conditions, cond.condType ≠ "Approved")
    (hparse : c.ParseCSR csr = .ok parsed) (hlist : c.machineClient = .ok ml)
    (hauth : authorizeCSR c.ipString (some ml) (some csr) (some parsed) = .ok ()) :
    ∃ u, (handleNewCSR c key).updates = [u] ∧ (handleNewCSR c key).err = c.clientset u ∧
      u.Meta = csr.Meta ∧ u.Spec = csr.Spec ∧ u.Status.Certificate = csr.Status.Certificate ∧
      u.Status.Conditions = csr.Status.Conditions ++
        [{ condType := "Approved", Reason := "NodeCSRApprove",
           Message := "This CSR was approved by the Node CSR Approver",
           LastUpdateTime := c.Now }] := by
  rw [handleNewCSR_listed c key csr parsed ml hget hna hparse hlist, hauth]
  simp only [approve_eq]
  exact ⟨_, rfl, rfl, rfl, rfl, rfl, rfl⟩

/-- C10: for a cached request without an Approved condition whose payload parses, when
the machine listing fails, `handleNewCSR` submits an update exactly when
`validateCSRContents` accepts; then the update is the cached request with one Approved
condition appended whose message is
`This CSR was approved by the Node CSR Approver (no SAN validation)`, which contains
`no SAN validation`; when `validateCSRContents` rejects, no update is submitted and no
error returned. -/
theorem C10_handleNewCSR_degraded (c : Controller) (key : String)
    (csr : CertificateSigningRequest) (parsed : CertificateRequest) (e : String)
    (hget : c.indexer key = .ok (some csr))
    (hna : ∀ cond ∈ csr.Status.Conditions, cond.condType ≠ "Approved")
    (hparse : c.ParseCSR csr = .ok parsed) (hlist : c.machineClient = .error e) :
    ((handleNewCSR c key).updates ≠ [] ↔ ∃ n, validateCSRContents csr parsed = .ok n) ∧
    ((∃ n, validateCSRContents csr parsed = .ok n) →
      (handleNewCSR c key).updates = [withApproval csr
        "This CSR was approved by the Node CSR Approver (no SAN validation)" c.Now] ∧
      (handleNewCSR c key).err = c.clientset (withApproval csr
        "This CSR was approved by the Node CSR Approver (no SAN validation)" c.Now) ∧
      "no SAN validation".data <:+:
        "This CSR was approved by the Node CSR Approver (no SAN validation)".data) ∧
    (∀ r, validateCSRContents csr parsed = .error r →
      handleNewCSR c key = { err := none, updates := [] }) := by
  have hmsg : "This CSR was approved by the Node CSR Approver" ++ " (no SAN validation)" =
      "This CSR was approved by the Node CSR Approver (no SAN validation)" := by decide
  have hrun := handleNewCSR_degraded c key csr parsed e hget hna hparse hlist
  rw [hmsg] at hrun
  cases hv : validateCSRContents csr parsed with
  | error r =>
    rw [hv] at hrun
    simp only at hrun
    refine ⟨?_, ?_, ?_⟩
    · rw [hrun]
      constructor
      · intro h; exact absurd rfl h
      · rintro ⟨n, hn⟩; cases hn
    · rintro ⟨n, hn⟩; cases hn
    · intro _ _; exact hrun
  | ok n =>
    rw [hv] at hrun
    simp only [approve_eq] at hrun
    refine ⟨?_, ?_, ?_⟩
    · rw [hrun]
      constructor
      · intro _; exact ⟨n, rfl⟩
      · intro _ h; cases h
    · intro _
      rw [hrun]
      exact ⟨rfl, rfl, "This CSR was approved by the Node CSR Approver (".data, ")".data, rfl⟩
    · intro r hr; cases hr

/-- Witness of C10: the scenario request with a SAN of another host is approved when the
machine listing fails, with the degraded message. -/
theorem C10_handleNewCSR_degraded_witness :
    validateCSRContents worker7Request (worker7Parsed ["worker-7-evil.cluster.local"] []) =
        .ok "worker-7" ∧
      (handleNewCSR (controllerWith worker7Request
          (.ok (worker7Parsed ["worker-7-evil.cluster.local"] []))
          (.error "connection refused") none) "csr-worker-7").updates =
        [withApproval worker7Request
          "This CSR was approved by the Node CSR Approver (no SAN validation)" 1000] :=
  ⟨rfl, ((C10_handleNewCSR_degraded
    (controllerWith worker7Request (.ok (worker7Parsed ["worker-7-evil.cluster.local"] []))
      (.error "connection refused") none)
    "csr-worker-7" worker7Request (worker7Parsed ["worker-7-evil.cluster.local"] [])
    "connection refused" rfl (by simp [worker7Request, requestOf]) rfl rfl).2.1
    ⟨"worker-7", rfl⟩).1⟩

/-! ## Outcomes of `handleNewCSR` and the retry policy -/

theorem degradedMsg_eq :
    "This CSR was approved by the Node CSR Approver" ++ " (no SAN validation)" =
      "This CSR was approved by the Node CSR Approver (no SAN validation)" := by decide

theorem handleNewCSR_lookup_error (c : Controller) (key e : String)
    (hget : c.indexer key = .error e) :
    handleNewCSR c key = { err := some e, updates := [] } := by
  unfold handleNewCSR
  rw [hget]

theorem handleNewCSR_absent (c : Controller) (key : String) (hget : c.indexer key = .ok none) :
    handleNewCSR c key = { err := none, updates := [] } := by
  unfold handleNewCSR
  rw [hget]

theorem handleNewCSR_unparseable (c : Controller) (key : String)
    (csr : CertificateSigningRequest) (e : String)
    (hget : c.indexer key = .ok (some csr)) (hparse : c.ParseCSR csr = .error e) :
    handleNewCSR c key = { err := none, updates := [] } := by
  unfold handleNewCSR
  rw [hget]
  simp only
  split_ifs
  · rfl
  · rw [hparse]

theorem approved_or_not (csr : CertificateSigningRequest) :
    (∃ cond ∈ csr.Status.Conditions, cond.condType = CertificateApproved) ∨
      ∀ cond ∈ csr.Status.Conditions, cond.condType ≠ CertificateApproved := by
  by_cases h : ∃ cond ∈ csr.Status.Conditions, cond.condType = CertificateApproved
  · exact Or.inl h
  · refine Or.inr ?_
    intro cond hc he
    exact h ⟨cond, hc, he⟩

/-- Every call of `handleNewCSR` ends in one of three ways: the cache lookup failed and its
error is returned; nothing is submitted and nil is returned; or the cached object, not yet
approved and with a parsed payload, is submitted with one Approved condition appended and
the error of the update call is returned. -/
theorem handleNewCSR_shape (c : Controller) (key : String) :
    (∃ e, c.indexer key = .error e ∧ handleNewCSR c key = { err := some e, updates := [] }) ∨
    ((∃ o, c.indexer key = .ok o) ∧ handleNewCSR c key = { err := none, updates := [] }) ∨
    (∃ csr parsed msg, c.indexer key = .ok (some csr) ∧
      (∀ cond ∈ csr.Status.Conditions, cond.condType ≠ CertificateApproved) ∧
      c.ParseCSR csr = .ok parsed ∧
      ((msg = "This CSR was approved by the Node CSR Approver" ∧
          ∃ ml, c.machineClient = .ok ml ∧
            authorizeCSR c.ipString (some ml) (some csr) (some parsed) = .ok ()) ∨
        (msg = "This CSR was approved by the Node CSR Approver (no SAN validation)" ∧
          ∃ e n, c.machineClient = .error e ∧ validateCSRContents csr parsed = .ok n)) ∧
      handleNewCSR c key =
        { err := c.clientset (withApproval csr msg c.Now),
          updates := [withApproval csr msg c.Now] }) := by
  cases hget : c.indexer key with
  | error e => exact Or.inl ⟨e, rfl, handleNewCSR_lookup_error c key e hget⟩
  | ok o =>
    cases o with
    | none => exact Or.inr (Or.inl ⟨⟨none, rfl⟩, handleNewCSR_absent c key hget⟩)
    | some csr =>
      rcases approved_or_not csr with happ | hna
      · exact Or.inr (Or.inl ⟨⟨_, rfl⟩, handleNewCSR_approved c key csr hget happ⟩)
      cases hparse : c.ParseCSR csr with
      | error e =>
        exact Or.inr (Or.inl ⟨⟨_, rfl⟩, handleNewCSR_unparseable c key csr e hget hparse⟩)
      | ok parsed =>
        cases hlist : c.machineClient with
        | ok ml =>
          have hrun := handleNewCSR_listed c key csr parsed ml hget hna hparse hlist
          cases hauth : authorizeCSR c.ipString (some ml) (some csr) (some parsed) with
          | error r =>
            rw [hauth] at hrun
            exact Or.inr (Or.inl ⟨⟨_, rfl⟩, hrun⟩)
          | ok v =>
            rw [hauth] at hrun
            simp only [approve_eq] at hrun
            exact Or.inr (Or.inr ⟨csr, parsed, _, rfl, hna, hparse,
              Or.inl ⟨rfl, ml, rfl, hauth⟩, hrun⟩)
        | error e =>
          have hrun := handleNewCSR_degraded c key csr parsed e hget hna hparse hlist
          rw [degradedMsg_eq] at hrun
          cases hv : validateCSRContents csr parsed with
          | error r =>
            rw [hv] at hrun
            exact Or.inr (Or.inl ⟨⟨_, rfl⟩, hrun⟩)
          | ok n =>
            rw [hv] at hrun
            simp only [approve_eq] at hrun
            exact Or.inr (Or.inr ⟨csr, parsed, _, rfl, hna, hparse,
              Or.inr ⟨rfl, e, n, rfl, hv⟩, hrun⟩)

/-- The body of `handleNewCSR` yields the error `e` exactly when the cache lookup failed with
`e` or an update was submitted and the update call failed with `e`; for an absent key, an
unparseable payload and a rejection it yields nil and submits nothing. -/
theorem handleNewCSR_body_error_iff (c : Controller) (key : String) :
    (∀ e, (handleNewCSR c key).err = some e ↔
      (c.indexer key = .error e ∨
        ∃ u, (handleNewCSR c key).updates = [u] ∧ c.clientset u = some e)) ∧
    (c.indexer key = .ok none → handleNewCSR c key = { err := none, updates := [] }) ∧
    (∀ csr e, c.indexer key = .ok (some csr) → c.ParseCSR csr = .error e →
      handleNewCSR c key = { err := none, updates := [] }) ∧
    (∀ csr parsed ml r, c.indexer key = .ok (some csr) → c.ParseCSR csr = .ok parsed →
      c.machineClient = .ok ml →
      authorizeCSR c.ipString (some ml) (some csr) (some parsed) = .error r →
      handleNewCSR c key = { err := none, updates := [] }) ∧
    (∀ csr parsed e r, c.indexer key = .ok (some csr) → c.ParseCSR csr = .ok parsed →
      c.machineClient = .error e → validateCSRContents csr parsed = .error r →
      handleNewCSR c key = { err := none, updates := [] }) ∧
    (∀ q : Queue, (handleNewCSR c key).err = none →
      (handleErr q (handleNewCSR c key).err key).calls = q.calls ++ [.Forget key]) := by
  refine ⟨?_, handleNewCSR_absent c key, ?_, ?_, ?_, ?_⟩
  · intro e
    rcases handleNewCSR_shape c key with ⟨e0, hget, hrun⟩ | ⟨⟨o, hget⟩, hrun⟩ |
      ⟨csr, parsed, msg, hget, -, -, -, hrun⟩
    · rw [hrun, hget]
      constructor
      · intro h
        exact Or.inl (by rw [Option.some.inj h])
      · rintro (h | ⟨u, hu, -⟩)
        · rw [Except.error.inj h]
        · cases hu
    · rw [hrun, hget]
      constructor
      · intro h; cases h
      · rintro (h | ⟨u, hu, -⟩)
        · cases h
        · cases hu
    · rw [hrun, hget]
      constructor
      · intro h
        exact Or.inr ⟨_, rfl, h⟩
      · rintro (h | ⟨u, hu, he⟩)
        · cases h
        · rw [List.singleton_inj.1 hu]; exact he
  · intro csr e hget hparse
    exact handleNewCSR_unparseable c key csr e hget hparse
  · intro csr parsed ml r hget hparse hlist hauth
    rcases approved_or_not csr with happ | hna
    · exact handleNewCSR_approved c key csr hget happ
    · rw [handleNewCSR_listed c key csr parsed ml hget hna hparse hlist, hauth]
  · intro csr parsed e r hget hparse hlist hv
    rcases approved_or_not csr with happ | hna
    · exact handleNewCSR_approved c key csr hget happ
    · rw [handleNewCSR_degraded c key csr parsed e hget hna hparse hlist, hv]
  · intro q h
    rw [h]
    rfl

theorem afterFailures_upto_five (q : Queue) (err key : String) (h0 : q.NumRequeues key = 0)
    (n : Nat) (hn : n ≤ 5) :
    (afterFailures q err key n).NumRequeues key = n ∧
      (afterFailures q err key n).calls = q.calls ++ List.replicate n (.AddRateLimited key) := by
  induction n with
  | zero => exact ⟨h0, by simp [afterFailures]⟩
  | succ k ih =>
    obtain ⟨hc, hl⟩ := ih (by omega)
    have hlt : (afterFailures q err key k).NumRequeues key < 5 := by omega
    have hstep : afterFailures q err key (k + 1) =
        (afterFailures q err key k).AddRateLimited key := by
      show handleErr (afterFailures q err key k) (some err) key = _
      unfold handleErr
      simp only
      rw [if_pos hlt]
    rw [hstep]
    constructor
    · show (if key = key then (afterFailures q err key k).failures key + 1 else _) = k + 1
      rw [if_pos rfl]
      show (afterFailures q err key k).NumRequeues key + 1 = k + 1
      rw [hc]
    · show (afterFailures q err key k).calls ++ [QueueCall.AddRateLimited key] = _
      rw [hl, List.replicate_succ', List.append_assoc]

/-- The body of `handleErr`, run repeatedly on a key whose counter is 0: the first five
failures call `AddRateLimited`, the sixth calls `Forget` and `HandleError`; four failures
and then a nil error end with `Forget`. -/
theorem handleErr_body_retry_bound (q : Queue) (err key : String)
    (h0 : q.NumRequeues key = 0) :
    (∀ n, n < 5 →
      handleErr (afterFailures q err key n) (some err) key =
          (afterFailures q err key n).AddRateLimited key ∧
        (afterFailures q err key (n + 1)).NumRequeues key = n + 1) ∧
    (afterFailures q err key 5).calls = q.calls ++ List.replicate 5 (.AddRateLimited key) ∧
    handleErr (afterFailures q err key 5) (some err) key =
      ((afterFailures q err key 5).Forget key).HandleError err ∧
    (afterFailures q err key 6).calls =
      q.calls ++ List.replicate 5 (.AddRateLimited key) ++ [.Forget key, .HandleError err] ∧
    (afterFailures q err key 6).NumRequeues key = 0 ∧
    (handleErr (afterFailures q err key 4) none key).calls =
      q.calls ++ List.replicate 4 (.AddRateLimited key) ++ [.Forget key] ∧
    (handleErr (afterFailures q err key 4) none key).NumRequeues key = 0 := by
  have h5 := afterFailures_upto_five q err key h0 5 (by omega)
  have h4 := afterFailures_upto_five q err key h0 4 (by omega)
  have hsix : handleErr (afterFailures q err key 5) (some err) key =
      ((afterFailures q err key 5).Forget key).HandleError err := by
    have hnlt : ¬ (afterFailures q err key 5).NumRequeues key < 5 := by rw [h5.1]; omega
    unfold handleErr
    simp only
    rw [if_neg hnlt]
  have hsix2 : afterFailures q err key 6 =
      ((afterFailures q err key 5).Forget key).HandleError err := hsix
  refine ⟨?_, h5.2, hsix, ?_, ?_, ?_, ?_⟩
  · intro n hn
    have hk := afterFailures_upto_five q err key h0 n (by omega)
    have hlt : (afterFailures q err key n).NumRequeues key < 5 := by rw [hk.1]; exact hn
    refine ⟨?_, (afterFailures_upto_five q err key h0 (n + 1) (by omega)).1⟩
    unfold handleErr
    simp only
    rw [if_pos hlt]
  · rw [hsix2]
    show ((afterFailures q err key 5).calls ++ [QueueCall.Forget key]) ++
      [QueueCall.HandleError err] = _
    rw [h5.2]
    simp
  · rw [hsix2]
    show (if key = key then 0 else (afterFailures q err key 5).failures key) = 0
    rw [if_pos rfl]
  · show (afterFailures q err key 4).calls ++ [QueueCall.Forget key] = _
    rw [h4.2]
  · show (if key = key then 0 else (afterFailures q err key 4).failures key) = 0
    rw [if_pos rfl]

/-! ## Target machine, empty inventory, order of the checks -/

theorem authorizeCSR_of_target (ipString : IP → String) (ml : MachineList)
    (req : CertificateSigningRequest) (csr : CertificateRequest) (n : String) (m : Machine)
    (hv : validateCSRContents req csr = .ok n) (hm : IsTargetMachine ml.Items n m) :
    authorizeCSR ipString (some ml) (some req) (some csr) =
      match checkDNSNames m.Status csr.DNSNames with
      | .error err => .error err
      | .ok () => checkIPAddresses ipString m.Status csr.IPAddresses := by
  have hne : ¬ ml.Items.length < 1 := by
    obtain ⟨before, after, h, -⟩ := hm
    rw [h]; simp
  have hf := (findTargetMachine_some ml.Items n m.Status).2 ⟨m, hm, rfl⟩
  unfold authorizeCSR
  simp only
  rw [if_neg hne, hv]
  simp only
  rw [hf]

theorem authorizeCSR_no_target (ipString : IP → String) (ml : MachineList)
    (req : CertificateSigningRequest) (csr : CertificateRequest) (n : String)
    (hv : validateCSRContents req csr = .ok n) (hne : ml.Items ≠ [])
    (hnone : ∀ m ∈ ml.Items, ¬ RefersTo m n) :
    authorizeCSR ipString (some ml) (some req) (some csr) = .error "No target machine" := by
  have hlen : ¬ ml.Items.length < 1 := by
    cases hl : ml.Items with
    | nil => exact absurd hl hne
    | cons x xs => simp
  have hf := (findTargetMachine_none ml.Items n).2 hnone
  unfold authorizeCSR
  simp only
  rw [if_neg hlen, hv]
  simp only
  rw [hf]

theorem isTargetMachine_single (n : String) (m : Machine) (h : RefersTo m n) :
    IsTargetMachine [m] n m :=
  ⟨[], [], rfl, by simp, h⟩

/-- The body of `authorizeCSR`, once the identity checks have passed with node name `n`:
its result on a list whose first machine bound to `n` is `m` equals its result on the list
that holds `m` alone; without a machine bound to `n` the result is `No target machine`. -/
theorem authorizeCSR_body_target_machine_selection (ipString : IP → String) (ml : MachineList)
    (req : CertificateSigningRequest) (csr : CertificateRequest) (n : String)
    (hv : validateCSRContents req csr = .ok n) :
    (∀ m, IsTargetMachine ml.Items n m →
      authorizeCSR ipString (some ml) (some req) (some csr) =
        authorizeCSR ipString (some ⟨[m]⟩) (some req) (some csr)) ∧
    (ml.Items ≠ [] → (∀ m ∈ ml.Items, ¬ RefersTo m n) →
      authorizeCSR ipString (some ml) (some req) (some csr) = .error "No target machine") ∧
    (∀ m, IsTargetMachine ml.Items n m →
      ((∃ san ∈ csr.DNSNames, san ≠ "" ∧ san ∉ dnsValues m.Status) ∨
        (∃ ip ∈ csr.IPAddresses, ip ≠ [] ∧ ipString ip ∉ ipValues m.Status)) →
      ∃ r, authorizeCSR ipString (some ml) (some req) (some csr) = .error r) := by
  refine ⟨?_, authorizeCSR_no_target ipString ml req csr n hv, ?_⟩
  · intro m hm
    have href : RefersTo m n := by
      obtain ⟨before, after, -, -, h⟩ := hm
      exact h
    rw [authorizeCSR_of_target ipString ml req csr n m hv hm,
      authorizeCSR_of_target ipString ⟨[m]⟩ req csr n m hv (isTargetMachine_single n m href)]
  · intro m hm habs
    rw [authorizeCSR_of_target ipString ml req csr n m hv hm]
    cases hd : checkDNSNames m.Status csr.DNSNames with
    | error e => exact ⟨e, rfl⟩
    | ok u =>
      simp only
      have hdok := (checkDNSNames_ok_iff _ _).1 hd
      cases hi : checkIPAddresses ipString m.Status csr.IPAddresses with
      | error e => exact ⟨e, rfl⟩
      | ok v =>
        exfalso
        have hiok := (checkIPAddresses_ok_iff _ _ _).1 hi
        rcases habs with ⟨san, hs, hne, hab⟩ | ⟨ip, hs, hne, hab⟩
        · exact hab (hdok san hs hne)
        · exact hab (hiok ip hs hne)

theorem authorizeCSR_empty (ipString : IP → String) (ml : MachineList)
    (req : Option CertificateSigningRequest) (csr : Option CertificateRequest)
    (hempty : ml.Items = []) :
    authorizeCSR ipString (some ml) req csr = .error "Invalid request" := by
  unfold authorizeCSR
  cases req with
  | none => rfl
  | some req =>
    cases csr with
    | none => rfl
    | some csr =>
      simp only
      rw [if_pos (by rw [hempty]; decide)]

theorem withApproval_last (csr : CertificateSigningRequest) (msg : String) (t : Nat) :
    (withApproval csr msg t).Status.Conditions.getLast? =
      some { condType := "Approved", Reason := "NodeCSRApprove", Message := msg,
             LastUpdateTime := t } := by
  simp [withApproval]

/-- C14: when the machine listing succeeds with zero machines, `authorizeCSR` answers
`Invalid request` for every request, and `handleNewCSR` submits no update and, the cache
lookup having succeeded, returns nil.  An update whose appended condition carries the
message of the identity-only path is submitted only when the listing call failed. -/
theorem C14_empty_inventory_never_approves (c : Controller) (key : String) :
    (∀ ml, c.machineClient = .ok ml → ml.Items = [] →
      (∀ req csr, authorizeCSR c.ipString (some ml) (some req) (some csr) =
        .error "Invalid request") ∧
      (handleNewCSR c key).updates = [] ∧
      (∀ o, c.indexer key = .ok o → handleNewCSR c key = { err := none, updates := [] })) ∧
    (∀ u ∈ (handleNewCSR c key).updates, ∀ cond, u.Status.Conditions.getLast? = some cond →
      cond.Message = "This CSR was approved by the Node CSR Approver (no SAN validation)" →
      ∃ e, c.machineClient = .error e) := by
  constructor
  · intro ml hlist hempty
    refine ⟨fun req csr => authorizeCSR_empty c.ipString ml _ _ hempty, ?_, ?_⟩
    · rcases handleNewCSR_shape c key with ⟨e0, -, hrun⟩ | ⟨-, hrun⟩ |
        ⟨csr, parsed, msg, -, -, -, hpath, -⟩
      · rw [hrun]
      · rw [hrun]
      · exfalso
        rcases hpath with ⟨-, ml2, hl2, hauth⟩ | ⟨-, e, n, hl2, -⟩
        · rw [hlist] at hl2
          cases hl2
          rw [authorizeCSR_empty c.ipString ml _ _ hempty] at hauth
          cases hauth
        · rw [hlist] at hl2
          cases hl2
    · intro o hget
      rcases handleNewCSR_shape c key with ⟨e0, hget2, -⟩ | ⟨-, hrun⟩ |
        ⟨csr, parsed, msg, -, -, -, hpath, -⟩
      · rw [hget] at hget2
        cases hget2
      · exact hrun
      · exfalso
        rcases hpath with ⟨-, ml2, hl2, hauth⟩ | ⟨-, e, n, hl2, -⟩
        · rw [hlist] at hl2
          cases hl2
          rw [authorizeCSR_empty c.ipString ml _ _ hempty] at hauth
          cases hauth
        · rw [hlist] at hl2
          cases hl2
  · intro u hu cond hlast hmsg
    rcases handleNewCSR_shape c key with ⟨e0, -, hrun⟩ | ⟨-, hrun⟩ |
      ⟨csr, parsed, msg, -, -, -, hpath, hrun⟩
    · rw [hrun] at hu
      cases hu
    · rw [hrun] at hu
      cases hu
    · rw [hrun] at hu
      simp only [List.mem_singleton] at hu
      rw [hu, withApproval_last] at hlast
      have hc := Option.some.inj hlast
      rw [← hc] at hmsg
      simp only at hmsg
      rcases hpath with ⟨hplain, -⟩ | ⟨-, e, n, hl2, -⟩
      · rw [hplain] at hmsg
        exact absurd hmsg (by decide)
      · exact ⟨e, hl2⟩

/-- Witness of C14: the scenario request, which passes every identity check, against a
listing that succeeds with no machine. -/
theorem C14_empty_inventory_never_approves_witness :
    validateCSRContents worker7Request (worker7Parsed [] []) = .ok "worker-7" ∧
      handleNewCSR (controllerWith worker7Request (.ok (worker7Parsed [] []))
        (.ok ⟨[]⟩) none) "csr-worker-7" = { err := none, updates := [] } :=
  ⟨rfl, ((C14_empty_inventory_never_approves
    (controllerWith worker7Request (.ok (worker7Parsed [] [])) (.ok ⟨[]⟩) none)
    "csr-worker-7").1 ⟨[]⟩ rfl rfl).2.2 (some worker7Request) rfl⟩

theorem validateCSRContents_ok_of_checks (req : CertificateSigningRequest)
    (csr : CertificateRequest) (h : ∀ k : Check, specCheck k req csr = true) :
    ∃ n, validateCSRContents req csr = .ok n := by
  have h1 := (specCheck_username req csr).1 (h .username)
  have h2 := (specCheck_groups req csr).1 (h .groups)
  have h3 := (specCheck_usages req csr).1 (h .usages)
  have h4 := (specCheck_commonName req csr).1 (h .commonName)
  have h5 := (specCheck_organization req csr).1 (h .organization)
  refine ⟨TrimPrefix req.Spec.Username nodeUserPrefix, ?_⟩
  unfold validateCSRContents
  simp [h1.1, h1.2, h2.1, h2.2, h3.1, h3.2, h4, h5, foldl_append_singleton]

theorem exists_first_failing (req : CertificateSigningRequest) (csr : CertificateRequest)
    (h : ¬ ∀ k : Check, specCheck k req csr = true) :
    ∃ k : Check, specCheck k req csr = false ∧
      ∀ j : Check, j.idx < k.idx → specCheck j req csr = true := by
  by_cases h1 : specCheck .username req csr = true
  swap
  · refine ⟨.username, by simpa using h1, ?_⟩
    intro j hj
    cases j <;> simp [Check.idx] at hj
  by_cases h2 : specCheck .groups req csr = true
  swap
  · refine ⟨.groups, by simpa using h2, ?_⟩
    intro j hj
    cases j <;> simp [Check.idx] at hj
    assumption
  by_cases h3 : specCheck .usages req csr = true
  swap
  · refine ⟨.usages, by simpa using h3, ?_⟩
    intro j hj
    cases j <;> simp [Check.idx] at hj <;> assumption
  by_cases h4 : specCheck .commonName req csr = true
  swap
  · refine ⟨.commonName, by simpa using h4, ?_⟩
    intro j hj
    cases j <;> simp [Check.idx] at hj <;> assumption
  by_cases h5 : specCheck .organization req csr = true
  swap
  · refine ⟨.organization, by simpa using h5, ?_⟩
    intro j hj
    cases j <;> simp [Check.idx] at hj <;> assumption
  exfalso
  apply h
  intro k
  cases k <;> assumption

/-- The body of `validateCSRContents` decides the five checks in the order username, groups,
usages, common name, organization, and the first failure gives the result. -/
theorem validateCSRContents_body_checks_in_order (req : CertificateSigningRequest) (csr : CertificateRequest) :
    (∀ r, validateCSRContents req csr = .error r →
      ∃ k : Check, specCheck k req csr = false ∧
        (∀ j : Check, j.idx < k.idx → specCheck j req csr = true) ∧ reasonField r = some k) ∧
    (∀ k : Check, specCheck k req csr = false →
      (∀ j : Check, j.idx < k.idx → specCheck j req csr = true) →
      ∃ r, validateCSRContents req csr = .error r ∧ reasonField r = some k) ∧
    (HasPrefix req.Spec.Username "system:node:" = false →
      validateCSRContents req csr = .error "Doesn't match expected prefix") := by
  refine ⟨?_, validateCSRContents_first_failing req csr, ?_⟩
  · intro r hr
    have hnot : ¬ ∀ k : Check, specCheck k req csr = true := by
      intro hall
      obtain ⟨n, hn⟩ := validateCSRContents_ok_of_checks req csr hall
      rw [hn] at hr
      cases hr
    obtain ⟨k, hk, hearlier⟩ := exists_first_failing req csr hnot
    obtain ⟨r2, hr2, hf⟩ := validateCSRContents_first_failing req csr k hk hearlier
    rw [hr] at hr2
    rw [Except.error.inj hr2]
    exact ⟨k, hk, hearlier, hf⟩
  · intro hp
    rw [← nodeUserPrefix_eq] at hp
    unfold validateCSRContents
    simp [hp]

/-! ## Termination of a call -/

/-- C16: `_logClusterCodePath` does not return within any call depth, and so a call of
`validateCSRContents` as written, which starts with a call of the helper, does not return
either: it yields neither a node name nor a rejection, for every request and parsed
request. -/
theorem C16_validateCSRContents_call_never_returns (fuel : Nat)
    (req : CertificateSigningRequest) (csr : CertificateRequest) :
    _logClusterCodePath fuel = none ∧ validateCSRContentsCall fuel req csr = none := by
  have h := logClusterCodePath_never_returns fuel
  refine ⟨h, ?_⟩
  unfold validateCSRContentsCall
  rw [h]

/-! ## Conditions, monotonicity, independence of the SANs -/

/-- The body of `handleNewCSR` looks for conditions of type Approved only: a request with a
Denied condition that is authorized is submitted with one Approved condition appended;
and every object submitted is the cached one with exactly one Approved condition
appended. -/
theorem handleNewCSR_body_only_approved_is_terminal (c : Controller) (key : String) :
    (∀ csr parsed, c.indexer key = .ok (some csr) →
      (∃ cond ∈ csr.Status.Conditions, cond.condType = "Denied") →
      (∀ cond ∈ csr.Status.Conditions, cond.condType ≠ "Approved") →
      c.ParseCSR csr = .ok parsed →
      ((∃ ml, c.machineClient = .ok ml ∧
          authorizeCSR c.ipString (some ml) (some csr) (some parsed) = .ok ()) ∨
        (∃ e n, c.machineClient = .error e ∧ validateCSRContents csr parsed = .ok n)) →
      ∃ u msg, (handleNewCSR c key).updates = [u] ∧
        u.Status.Conditions = csr.Status.Conditions ++
          [{ condType := "Approved", Reason := "NodeCSRApprove", Message := msg,
             LastUpdateTime := c.Now }] ∧
        ∃ cond ∈ u.Status.Conditions.dropLast, cond.condType = "Denied") ∧
    (∀ u ∈ (handleNewCSR c key).updates, ∃ csr msg, c.indexer key = .ok (some csr) ∧
      u.Meta = csr.Meta ∧ u.Spec = csr.Spec ∧
      u.Status.Conditions = csr.Status.Conditions ++
        [{ condType := "Approved", Reason := "NodeCSRApprove", Message := msg,
           LastUpdateTime := c.Now }]) := by
  constructor
  · intro csr parsed hget hden hna hparse hpath
    rcases hpath with ⟨ml, hlist, hauth⟩ | ⟨e, n, hlist, hv⟩
    · refine ⟨withApproval csr "This CSR was approved by the Node CSR Approver" c.Now, _,
        ?_, rfl, ?_⟩
      · rw [handleNewCSR_listed c key csr parsed ml hget hna hparse hlist, hauth]
        simp only [approve_eq]
      · simpa [withApproval] using hden
    · refine ⟨withApproval csr
        "This CSR was approved by the Node CSR Approver (no SAN validation)" c.Now, _,
        ?_, rfl, ?_⟩
      · rw [handleNewCSR_degraded c key csr parsed e hget hna hparse hlist, hv,
          degradedMsg_eq]
        simp only [approve_eq]
      · simpa [withApproval] using hden
  · intro u hu
    rcases handleNewCSR_shape c key with ⟨e0, -, hrun⟩ | ⟨-, hrun⟩ |
      ⟨csr, parsed, msg, hget, -, -, -, hrun⟩
    · rw [hrun] at hu
      cases hu
    · rw [hrun] at hu
      cases hu
    · rw [hrun] at hu
      simp only [List.mem_singleton] at hu
      rw [hu]
      exact ⟨csr, msg, hget, rfl, rfl, rfl⟩

theorem dnsValues_mono (st st2 : MachineStatus)
    (h : ∀ a ∈ st.Addresses, a ∈ st2.Addresses) (san : String) (hs : san ∈ dnsValues st) :
    san ∈ dnsValues st2 := by
  obtain ⟨a, ha, ht, he⟩ := (mem_dnsValues st san).1 hs
  exact (mem_dnsValues st2 san).2 ⟨a, h a ha, ht, he⟩

theorem ipValues_mono (st st2 : MachineStatus)
    (h : ∀ a ∈ st.Addresses, a ∈ st2.Addresses) (san : String) (hs : san ∈ ipValues st) :
    san ∈ ipValues st2 := by
  obtain ⟨a, ha, ht, he⟩ := (mem_ipValues st san).1 hs
  exact (mem_ipValues st2 san).2 ⟨a, h a ha, ht, he⟩

/-- C18: if `authorizeCSR` accepts a request against a machine list, it accepts the same
request against the list with any machines appended at its end, and against the list in
which the target machine (the first one bound to the node name) is replaced by a machine
with the same node reference whose address list holds every address of the target
machine. -/
theorem C18_authorizeCSR_monotone (ipString : IP → String) (ml : MachineList)
    (req : CertificateSigningRequest) (csr : CertificateRequest)
    (h : authorizeCSR ipString (some ml) (some req) (some csr) = .ok ()) :
    (∀ extra : List Machine,
      authorizeCSR ipString (some ⟨ml.Items ++ extra⟩) (some req) (some csr) = .ok ()) ∧
    (∀ (n : String) (before after : List Machine) (m m2 : Machine),
      validateCSRContents req csr = .ok n → ml.Items = before ++ m :: after →
      (∀ x ∈ before, ¬ RefersTo x n) → RefersTo m n →
      m2.Status.NodeRef = m.Status.NodeRef →
      (∀ a ∈ m.Status.Addresses, a ∈ m2.Status.Addresses) →
      authorizeCSR ipString (some ⟨before ++ m2 :: after⟩) (some req) (some csr) = .ok ()) := by
  obtain ⟨n0, m0, hv0, hm0, hd0, hi0⟩ := (authorizeCSR_ok_iff ipString ml req csr).1 h
  constructor
  · intro extra
    refine (authorizeCSR_ok_iff ipString ⟨ml.Items ++ extra⟩ req csr).2
      ⟨n0, m0, hv0, ?_, hd0, hi0⟩
    obtain ⟨before, after, hl, hb, hr⟩ := hm0
    exact ⟨before, after ++ extra, by rw [hl]; simp, hb, hr⟩
  · intro n before after m m2 hv hl hb hr hnode haddr
    have hn : n0 = n := by
      rw [hv0] at hv; exact Except.ok.inj hv
    subst hn
    have hst : m0.Status = m.Status := by
      have h1 := (findTargetMachine_some ml.Items n0 m0.Status).2 ⟨m0, hm0, rfl⟩
      have h2 := (findTargetMachine_some ml.Items n0 m.Status).2
        ⟨m, ⟨before, after, hl, hb, hr⟩, rfl⟩
      rw [h1] at h2
      exact Option.some.inj h2
    rw [hst] at hd0 hi0
    have hr2 : RefersTo m2 n0 := by
      obtain ⟨ref, href, hname⟩ := hr
      exact ⟨ref, by rw [hnode]; exact href, hname⟩
    refine (authorizeCSR_ok_iff ipString ⟨before ++ m2 :: after⟩ req csr).2
      ⟨n0, m2, hv0, ⟨before, after, rfl, hb, hr2⟩, ?_, ?_⟩
    · intro san hs hne
      exact dnsValues_mono _ _ haddr san (hd0 san hs hne)
    · intro ip hs hne
      exact ipValues_mono _ _ haddr _ (hi0 ip hs hne)

/-- Witness of C18: the scenario, with a machine appended to the list, and with an address
added in front of the target machine's addresses. -/
theorem C18_authorizeCSR_monotone_witness :
    authorizeCSR dottedString
        (some ⟨[worker7Machine] ++ [machineFor "worker-8" []]⟩) (some worker7Request)
        (some (worker7Parsed ["worker-7.cluster.local"] [[10, 0, 0, 7]])) = .ok () ∧
    authorizeCSR dottedString
        (some ⟨[] ++ machineFor "worker-7"
          ({ addrType := "ExternalIP", Address := "192.0.2.7" } ::
            worker7Machine.Status.Addresses) :: []⟩) (some worker7Request)
        (some (worker7Parsed ["worker-7.cluster.local"] [[10, 0, 0, 7]])) = .ok () :=
  ⟨(C18_authorizeCSR_monotone dottedString ⟨[worker7Machine]⟩ worker7Request
      (worker7Parsed ["worker-7.cluster.local"] [[10, 0, 0, 7]]) rfl).1
      [machineFor "worker-8" []],
   (C18_authorizeCSR_monotone dottedString ⟨[worker7Machine]⟩ worker7Request
      (worker7Parsed ["worker-7.cluster.local"] [[10, 0, 0, 7]]) rfl).2
      "worker-7" [] [] worker7Machine
      (machineFor "worker-7"
        ({ addrType := "ExternalIP", Address := "192.0.2.7" } ::
          worker7Machine.Status.Addresses))
      rfl rfl (by simp) ⟨_, rfl, rfl⟩ rfl (fun a ha => List.mem_cons_of_mem _ ha)⟩

theorem validateCSRContents_subject (req : CertificateSigningRequest)
    (csr1 csr2 : CertificateRequest)
    (hcn : csr1.Subject.CommonName = csr2.Subject.CommonName)
    (horg : csr1.Subject.Organization = csr2.Subject.Organization) :
    validateCSRContents req csr1 = validateCSRContents req csr2 := by
  unfold validateCSRContents
  rw [hcn, horg]

/-- C19: two parsed requests with the same common name and the same organizations get the
same result from `validateCSRContents`, whatever their DNS names and IP addresses; so when
the machine listing fails, two runs of `handleNewCSR` on the same cached request whose
parsed payloads differ only in the SANs both submit an update or both submit none. -/
theorem C19_validateCSRContents_ignores_sans (req : CertificateSigningRequest)
    (csr1 csr2 : CertificateRequest)
    (hcn : csr1.Subject.CommonName = csr2.Subject.CommonName)
    (horg : csr1.Subject.Organization = csr2.Subject.Organization) :
    validateCSRContents req csr1 = validateCSRContents req csr2 ∧
    (∀ (c1 c2 : Controller) (key e1 e2 : String),
      c1.indexer key = .ok (some req) → c2.indexer key = .ok (some req) →
      c1.ParseCSR req = .ok csr1 → c2.ParseCSR req = .ok csr2 →
      c1.machineClient = .error e1 → c2.machineClient = .error e2 →
      ((handleNewCSR c1 key).updates = [] ↔ (handleNewCSR c2 key).updates = [])) := by
  have hv := validateCSRContents_subject req csr1 csr2 hcn horg
  refine ⟨hv, ?_⟩
  intro c1 c2 key e1 e2 hg1 hg2 hp1 hp2 hl1 hl2
  rcases approved_or_not req with happ | hna
  · rw [handleNewCSR_approved c1 key req hg1 happ, handleNewCSR_approved c2 key req hg2 happ]
  · rw [handleNewCSR_degraded c1 key req csr1 e1 hg1 hna hp1 hl1,
      handleNewCSR_degraded c2 key req csr2 e2 hg2 hna hp2 hl2, hv]
    cases validateCSRContents req csr2 with
    | error r => simp
    | ok n => simp [approve_eq]

/-- Witness of C19: the scenario request with no SAN and with SANs of another host. -/
theorem C19_validateCSRContents_ignores_sans_witness :
    validateCSRContents worker7Request (worker7Parsed [] []) =
      validateCSRContents worker7Request
        (worker7Parsed ["worker-7-evil.cluster.local"] [[192, 0, 2, 66]]) :=
  (C19_validateCSRContents_ignores_sans worker7Request (worker7Parsed [] [])
    (worker7Parsed ["worker-7-evil.cluster.local"] [[192, 0, 2, 66]]) rfl rfl).1

/-! ## The functions as written -/

theorem withCodePathLog_none {α : Type} (body : α) : withCodePathLog none body = none := rfl

theorem withCodePathLog_some {α : Type} (body : α) :
    withCodePathLog (some ()) body = some body := rfl

theorem withCodePathLog_eq_some {α : Type} (helper : Option Unit) (body r : α)
    (h : withCodePathLog helper body = some r) : r = body := by
  cases helper with
  | none => cases h
  | some u =>
    cases u
    rw [withCodePathLog_some] at h
    exact (Option.some.inj h).symm

theorem validateCSRContentsCall_eq (fuel : Nat) (req : CertificateSigningRequest)
    (csr : CertificateRequest) :
    validateCSRContentsCall fuel req csr =
      withCodePathLog (_logClusterCodePath fuel) (validateCSRContents req csr) := rfl

theorem validateCSRContentsCall_none (fuel : Nat) (req : CertificateSigningRequest)
    (csr : CertificateRequest) : validateCSRContentsCall fuel req csr = none := by
  rw [validateCSRContentsCall_eq, logClusterCodePath_never_returns]
  rfl

theorem authorizeCSRCall_none (fuel : Nat) (ipString : IP → String)
    (machineList : Option MachineList) (req : Option CertificateSigningRequest)
    (csr : Option CertificateRequest) :
    authorizeCSRCall fuel ipString machineList req csr = none := by
  unfold authorizeCSRCall
  rw [logClusterCodePath_never_returns]
  rfl

theorem handleNewCSRCall_none (fuel : Nat) (c : Controller) (key : String) :
    handleNewCSRCall fuel c key = none := by
  unfold handleNewCSRCall
  rw [logClusterCodePath_never_returns]
  rfl

theorem handleErrCall_none (fuel : Nat) (q : Queue) (err : Option String) (key : String) :
    handleErrCall fuel q err key = none := by
  unfold handleErrCall
  rw [logClusterCodePath_never_returns]
  rfl

theorem validateCSRContents_ok_of_identity (req : CertificateSigningRequest)
    (csr : CertificateRequest) (n : String)
    (hchecks : ∀ k : Check, specCheck k req csr = true)
    (hname : req.Spec.Username = "system:node:" ++ n) :
    validateCSRContents req csr = .ok n := by
  obtain ⟨n2, hn2⟩ := validateCSRContents_ok_of_checks req csr hchecks
  have h := ((validateCSRContents_ok_iff_aux req csr n2).1 hn2).1.1
  rw [nodeUserPrefix_eq, hname] at h
  rw [hn2, string_append_left_cancel _ _ _ h]

theorem worker7_checks (dns : List String) (ips : List IP) :
    ∀ k : Check, specCheck k worker7Request (worker7Parsed dns ips) = true := by
  intro k
  cases k <;> rfl

/-- C1: the scenario request meets the five conditions with node name `worker-7`, so it is
to be accepted with that name; the call of `validateCSRContents` as written returns
nothing at any call depth, because its first statement is a call of
`_logClusterCodePath`. -/
theorem C1_validateCSRContents_call_returns_nothing :
    (∀ k : Check, specCheck k worker7Request (worker7Parsed [] []) = true) ∧
    worker7Request.Spec.Username = "system:node:" ++ "worker-7" ∧
    ∀ fuel, validateCSRContentsCall fuel worker7Request (worker7Parsed [] []) = none :=
  ⟨worker7_checks [] [], rfl, fun fuel => validateCSRContentsCall_none fuel _ _⟩

/-- Counterexample to C4 as stated: the request meets the five identity conditions, the
target machine is in the list and the DNS SAN `10.0.0.7` is the value of one of its
addresses, but only of one of type InternalIP; the call of `authorizeCSR` does not return
nil, whether the helper `_logClusterCodePath` returns or not. -/
theorem C4_counterexample :
    (∀ k : Check, specCheck k worker7Request (worker7Parsed ["10.0.0.7"] []) = true) ∧
      worker7Request.Spec.Username = "system:node:" ++ "worker-7" ∧
      IsTargetMachine [worker7Machine] "worker-7" worker7Machine ∧
      (∀ san ∈ (worker7Parsed ["10.0.0.7"] []).DNSNames, san ≠ "" →
        ∃ a ∈ worker7Machine.Status.Addresses, a.Address = san) ∧
      (∀ ip ∈ (worker7Parsed ["10.0.0.7"] []).IPAddresses, ip ≠ [] →
        ∃ a ∈ worker7Machine.Status.Addresses, a.Address = dottedString ip) ∧
      (∀ helper, withCodePathLog helper
          (authorizeCSR dottedString (some ⟨[worker7Machine]⟩) (some worker7Request)
            (some (worker7Parsed ["10.0.0.7"] []))) ≠ some (.ok ())) ∧
      (∀ fuel, authorizeCSRCall fuel dottedString (some ⟨[worker7Machine]⟩)
          (some worker7Request) (some (worker7Parsed ["10.0.0.7"] [])) ≠ some (.ok ())) := by
  have hbody : authorizeCSR dottedString (some ⟨[worker7Machine]⟩) (some worker7Request)
      (some (worker7Parsed ["10.0.0.7"] [])) =
      .error "DNS name '10.0.0.7' not in machine names: worker-7.cluster.local worker-7" := rfl
  refine ⟨worker7_checks _ _, rfl, ⟨[], [], rfl, by simp, ⟨_, rfl, rfl⟩⟩, ?_, ?_, ?_, ?_⟩
  · intro san hs _
    simp only [worker7Parsed, parsedOf, List.mem_singleton] at hs
    subst hs
    exact ⟨⟨"InternalIP", "10.0.0.7"⟩, by simp [worker7Machine, machineFor], rfl⟩
  · intro ip hs
    simp [worker7Parsed, parsedOf] at hs
  · intro helper h
    have h2 := withCodePathLog_eq_some helper _ _ h
    rw [hbody] at h2
    cases h2
  · intro fuel h
    rw [authorizeCSRCall_none] at h
    cases h

/-- C4, amended: when the request meets the five identity conditions with node name `n` and
`m` is the first machine of the list bound to `n`, if every non-empty DNS SAN is the value
of an address of `m` of type InternalDNS, ExternalDNS or Hostname and the string form of
every non-empty IP SAN is the value of an address of `m` of type InternalIP or ExternalIP,
then `authorizeCSR` returns no rejection: its call returns nil when the helper
`_logClusterCodePath` returns and nothing when it does not. -/
theorem C4_authorizeCSR_typed_superset_not_rejected (ipString : IP → String)
    (ml : MachineList) (req : CertificateSigningRequest) (csr : CertificateRequest)
    (n : String) (m : Machine)
    (hchecks : ∀ k : Check, specCheck k req csr = true)
    (hname : req.Spec.Username = "system:node:" ++ n)
    (hm : IsTargetMachine ml.Items n m)
    (hdns : ∀ san ∈ csr.DNSNames, san ≠ "" →
      ∃ a ∈ m.Status.Addresses, IsDNSType a.addrType ∧ a.Address = san)
    (hip : ∀ ip ∈ csr.IPAddresses, ip ≠ [] →
      ∃ a ∈ m.Status.Addresses, IsIPType a.addrType ∧ a.Address = ipString ip) :
    (∀ helper, withCodePathLog helper
        (authorizeCSR ipString (some ml) (some req) (some csr)) =
      helper.map (fun _ => Except.ok ())) ∧
    (∀ fuel e, authorizeCSRCall fuel ipString (some ml) (some req) (some csr) ≠
      some (.error e)) := by
  have hv := validateCSRContents_ok_of_identity req csr n hchecks hname
  have hbody : authorizeCSR ipString (some ml) (some req) (some csr) = .ok () :=
    (authorizeCSR_ok_iff ipString ml req csr).2
      ⟨n, m, hv, hm, fun san hs hne => (mem_dnsValues _ _).2 (hdns san hs hne),
        fun ip hs hne => (mem_ipValues _ _).2 (hip ip hs hne)⟩
  constructor
  · intro helper
    rw [hbody]
    cases helper with
    | none => rfl
    | some u => cases u; rfl
  · intro fuel e h
    rw [authorizeCSRCall_none] at h
    cases h

/-- Witness of amended C4: the specification's scenario, DNS SAN `worker-7.cluster.local`
against the address `(InternalDNS, worker-7.cluster.local)`. -/
theorem C4_authorizeCSR_typed_superset_not_rejected_witness :
    (∀ k : Check,
      specCheck k worker7Request (worker7Parsed ["worker-7.cluster.local"] []) = true) ∧
      (∀ helper, withCodePathLog helper
          (authorizeCSR dottedString (some ⟨[worker7Machine]⟩) (some worker7Request)
            (some (worker7Parsed ["worker-7.cluster.local"] []))) =
        helper.map (fun _ => Except.ok ())) ∧
      (∀ fuel e, authorizeCSRCall fuel dottedString (some ⟨[worker7Machine]⟩)
        (some worker7Request) (some (worker7Parsed ["worker-7.cluster.local"] [])) ≠
          some (.error e)) :=
  ⟨worker7_checks _ _, C4_authorizeCSR_typed_superset_not_rejected dottedString ⟨[worker7Machine]⟩
    worker7Request (worker7Parsed ["worker-7.cluster.local"] []) "worker-7" worker7Machine
    (worker7_checks _ _) rfl ⟨[], [], rfl, by simp, ⟨_, rfl, rfl⟩⟩
    (by
      intro san hs _
      simp only [worker7Parsed, parsedOf, List.mem_singleton] at hs
      subst hs
      exact ⟨⟨"InternalDNS", "worker-7.cluster.local"⟩, by simp [worker7Machine, machineFor],
        Or.inl rfl, rfl⟩)
    (by
      intro ip hs
      simp [worker7Parsed, parsedOf] at hs)⟩

/-- C5: in the specification's second scenario the request meets the five identity
conditions, the target machine is in the list and `worker-7-evil.cluster.local` is the
first DNS SAN absent from its names, so a rejection naming that SAN is due; the call of
`authorizeCSR` as written returns nothing at any call depth. -/
theorem C5_authorizeCSR_call_returns_nothing :
    (∀ k : Check,
      specCheck k worker7Request (worker7Parsed ["worker-7-evil.cluster.local"] []) = true) ∧
    IsTargetMachine [worker7Machine] "worker-7" worker7Machine ∧
    firstMissingDNS worker7Machine.Status
        (worker7Parsed ["worker-7-evil.cluster.local"] []).DNSNames =
      some "worker-7-evil.cluster.local" ∧
    ∀ fuel, authorizeCSRCall fuel dottedString (some ⟨[worker7Machine]⟩)
      (some worker7Request) (some (worker7Parsed ["worker-7-evil.cluster.local"] [])) = none :=
  ⟨worker7_checks _ _, ⟨[], [], rfl, by simp, ⟨_, rfl, rfl⟩⟩, by decide,
    fun fuel => authorizeCSRCall_none fuel _ _ _ _⟩

/-- Counterexample to C6 as stated: `bobRequest` fails the organization check (and the
username check); the call of `validateCSRContents` returns no rejection whose reason
belongs to the organization check, whether the helper `_logClusterCodePath` returns or
not. -/
theorem C6_counterexample :
    specCheck .organization bobRequest (parsedOf "bob" [] [] []) = false ∧
      (∀ helper r, withCodePathLog helper
          (validateCSRContents bobRequest (parsedOf "bob" [] [] [])) = some (.error r) →
        reasonField r ≠ some .organization) ∧
      (∀ fuel r, validateCSRContentsCall fuel bobRequest (parsedOf "bob" [] [] []) ≠
        some (.error r)) := by
  have hbody : validateCSRContents bobRequest (parsedOf "bob" [] [] []) =
      .error "Doesn't match expected prefix" := rfl
  refine ⟨by decide, ?_, ?_⟩
  · intro helper r h
    have h2 := withCodePathLog_eq_some helper _ _ h
    rw [hbody] at h2
    rw [Except.error.inj h2]
    decide
  · intro fuel r h
    rw [validateCSRContentsCall_none] at h
    cases h

/-- C6, amended: for a request that fails one of the five checks and passes every check
listed before it (order: username, groups, usages, common name, organization), there is
a reason `r` produced by that check and by no other check such that the call of
`validateCSRContents` returns the rejection `r` when the helper `_logClusterCodePath`
returns and nothing when it does not, whether the later checks pass or fail. -/
theorem C6_reason_belongs_to_first_failing_check (req : CertificateSigningRequest)
    (csr : CertificateRequest) (k : Check) (hfail : specCheck k req csr = false)
    (hearlier : ∀ j : Check, j.idx < k.idx → specCheck j req csr = true) :
    ∃ r, reasonField r = some k ∧ (∀ j : Check, j ≠ k → reasonField r ≠ some j) ∧
      (∀ helper, withCodePathLog helper (validateCSRContents req csr) =
        helper.map (fun _ => Except.error r)) ∧
      (∀ fuel n, validateCSRContentsCall fuel req csr ≠ some (.ok n)) := by
  obtain ⟨r, hr, hk⟩ := validateCSRContents_first_failing req csr k hfail hearlier
  refine ⟨r, hk, ?_, ?_, ?_⟩
  · intro j hj hc
    rw [hk] at hc
    exact hj (Option.some.inj hc).symm
  · intro helper
    rw [hr]
    cases helper with
    | none => rfl
    | some u => cases u; rfl
  · intro fuel n h
    rw [validateCSRContentsCall_none] at h
    cases h

/-- Witness of amended C6: the scenario request with an empty organization list fails the
organization check only; taken at a helper that returns, the rejection is one of the
organization check. -/
theorem C6_reason_belongs_to_first_failing_check_witness :
    specCheck .organization worker7Request (parsedOf "system:node:worker-7" [] [] []) = false ∧
      ∃ r, reasonField r = some .organization ∧
        (∀ j : Check, j ≠ .organization → reasonField r ≠ some j) ∧
        (∀ helper, withCodePathLog helper
            (validateCSRContents worker7Request (parsedOf "system:node:worker-7" [] [] [])) =
          helper.map (fun _ => Except.error r)) ∧
        (∀ fuel n, validateCSRContentsCall fuel worker7Request
          (parsedOf "system:node:worker-7" [] [] []) ≠ some (.ok n)) :=
  ⟨by decide, C6_reason_belongs_to_first_failing_check worker7Request
    (parsedOf "system:node:worker-7" [] [] []) .organization (by decide)
    (by intro j hj; cases j <;> first | rfl | exact absurd hj (by decide))⟩

/-- C9: in the specification's first scenario the cached request has no condition, its
payload parses, the listing answers the target machine, the five identity conditions hold
and the DNS SAN is one of the target machine's names, so one update with an appended
Approved condition is due; the call of `handleNewCSR` as written returns nothing and
submits nothing at any call depth. -/
theorem C9_handleNewCSR_call_submits_nothing :
    worker7Controller.indexer "csr-worker-7" = .ok (some worker7Request) ∧
    worker7Request.Status.Conditions = [] ∧
    worker7Controller.ParseCSR worker7Request =
      .ok (worker7Parsed ["worker-7.cluster.local"] []) ∧
    worker7Controller.machineClient = .ok ⟨[worker7Machine]⟩ ∧
    (∀ k : Check,
      specCheck k worker7Request (worker7Parsed ["worker-7.cluster.local"] []) = true) ∧
    IsTargetMachine [worker7Machine] "worker-7" worker7Machine ∧
    "worker-7.cluster.local" ∈ dnsValues worker7Machine.Status ∧
    ∀ fuel, handleNewCSRCall fuel worker7Controller "csr-worker-7" = none :=
  ⟨rfl, rfl, rfl, rfl, worker7_checks _ _, ⟨[], [], rfl, by simp, ⟨_, rfl, rfl⟩⟩, by decide,
    fun fuel => handleNewCSRCall_none fuel _ _⟩

/-- C11: when the cache lookup fails, the error of the lookup is to be returned; the call
of `handleNewCSR` as written returns nothing at any call depth, and so returns no
error. -/
theorem C11_handleNewCSR_call_returns_no_error :
    failingLookupController.indexer "csr-worker-7" = .error "cache unavailable" ∧
    ∀ fuel, handleNewCSRCall fuel failingLookupController "csr-worker-7" = none :=
  ⟨rfl, fun fuel => handleNewCSRCall_none fuel _ _⟩

/-- C12: for a key whose requeue counter is 0 a failed reconciliation is to re-enqueue the
key; the call of `handleErr` as written returns nothing at any call depth, the queue
receiving no call. -/
theorem C12_handleErr_call_makes_no_queue_call :
    freshQueue.NumRequeues "csr-worker-7" = 0 ∧
    ∀ fuel, handleErrCall fuel freshQueue (some "conflict") "csr-worker-7" = none :=
  ⟨rfl, fun fuel => handleErrCall_none fuel _ _ _⟩

/-- C13: the scenario request meets the five identity conditions with node name `worker-7`
and the list holds one machine, bound to `worker-8`, so the rejection `No target machine`
is due; the call of `authorizeCSR` as written returns nothing at any call depth. -/
theorem C13_authorizeCSR_call_returns_nothing :
    (∀ k : Check, specCheck k worker7Request (worker7Parsed [] []) = true) ∧
    worker7Request.Spec.Username = "system:node:" ++ "worker-7" ∧
    (∀ m ∈ [machineFor "worker-8" []], ¬ RefersTo m "worker-7") ∧
    ∀ fuel, authorizeCSRCall fuel dottedString (some ⟨[machineFor "worker-8" []]⟩)
      (some worker7Request) (some (worker7Parsed [] [])) = none := by
  refine ⟨worker7_checks _ _, rfl, ?_, fun fuel => authorizeCSRCall_none fuel _ _ _ _⟩
  intro m hm
  rw [List.mem_singleton.1 hm]
  rintro ⟨ref, href, hname⟩
  simp only [machineFor, Option.some.injEq] at href
  rw [← href] at hname
  exact absurd hname (by decide)

/-- C15: the username `bob` lacks the prefix `system:node:`, so the rejection
`Doesn't match expected prefix` is due; the call of `validateCSRContents` as written
returns nothing at any call depth. -/
theorem C15_validateCSRContents_call_returns_no_reason :
    HasPrefix bobRequest.Spec.Username "system:node:" = false ∧
    specCheck .username bobRequest (parsedOf "alice" [] [] []) = false ∧
    ∀ fuel, validateCSRContentsCall fuel bobRequest (parsedOf "alice" [] [] []) = none :=
  ⟨by decide, by decide, fun fuel => validateCSRContentsCall_none fuel _ _⟩

/-- C17: the cached request has a Denied condition and no Approved one, its payload parses,
the listing answers the target machine, the five identity conditions hold and the DNS SAN
is one of the target machine's names, so an update with an Approved condition appended
after the Denied one is due; the call of `handleNewCSR` as written returns nothing and
submits nothing at any call depth. -/
theorem C17_handleNewCSR_call_submits_nothing_for_denied :
    deniedController.indexer "csr-worker-7" = .ok (some deniedRequest) ∧
    (∃ cond ∈ deniedRequest.Status.Conditions, cond.condType = "Denied") ∧
    (∀ cond ∈ deniedRequest.Status.Conditions, cond.condType ≠ "Approved") ∧
    deniedController.ParseCSR deniedRequest =
      .ok (worker7Parsed ["worker-7.cluster.local"] []) ∧
    deniedController.machineClient = .ok ⟨[worker7Machine]⟩ ∧
    (∀ k : Check,
      specCheck k deniedRequest (worker7Parsed ["worker-7.cluster.local"] []) = true) ∧
    "worker-7.cluster.local" ∈ dnsValues worker7Machine.Status ∧
    ∀ fuel, handleNewCSRCall fuel deniedController "csr-worker-7" = none := by
  refine ⟨rfl, ⟨_, List.mem_singleton.2 rfl, rfl⟩, ?_, rfl, rfl, ?_, by decide,
    fun fuel => handleNewCSRCall_none fuel _ _⟩
  · intro cond hc
    rw [List.mem_singleton.1 hc]
    decide
  · intro k
    cases k <;> rfl

end MachineApprover
